import Mathlib

/-!
# aux_opengl.h : matrix construction and shader building

A shallow embedding of the matrix and vector routines and of the shader
builder of `aux_opengl.h`.

* A C `float *` argument is a buffer `Buf α = Nat → α`: the floats reachable
  from the pointer, indexed from 0.  A routine that writes through the
  pointer takes the contents before the call and returns the contents after.
* Float arithmetic is read in an arbitrary field `α`; the theorems take
  `α = ℝ`.  The libm functions `tanf` and `sqrtf` are parameters of the
  routines that call them, instantiated with `Real.tan` and `Real.sqrt`.
* Input pointers are never aliased with the output pointer (the routines are
  only ever called that way in the source), so inputs are plain values.
* The graphics driver is an oracle whose answers are a function of the calls
  made so far; the shader routines thread the list of driver calls.
-/

namespace AuxGl

/-- A `float *` buffer, indexed from the pointer. -/
abbrev Buf (α : Type) := Nat → α

section Defs

variable {α : Type}

/-- The assignment `m[i] = v`. -/
def store (m : Buf α) (i : Nat) (v : α) : Buf α :=
  fun j => if j = i then v else m j

variable [Field α]

/-- Contents of a local array that has been declared but not yet written.
Every entry the routines read from such an array is written first, so the
value chosen here is never observed. -/
def uninit : Buf α := fun _ => 0

/-- `auxGlMvpPerspective(mvp, fov, screenratio, near, far)`, lines 180-208. -/
def auxGlMvpPerspective (tanf : α → α) (mvp : Buf α)
    (fov screenratio near far : α) : Buf α :=
  let size := near * tanf (fov * 0.5)
  let left := -size
  let right := size
  let bottom := -size / screenratio
  let top := size / screenratio
  let mvp := store mvp 0 (2 * near / (right - left))
  let mvp := store mvp 1 0
  let mvp := store mvp 2 0
  let mvp := store mvp 3 0
  let mvp := store mvp 4 0
  let mvp := store mvp 5 (2 * near / (top - bottom))
  let mvp := store mvp 6 0
  let mvp := store mvp 7 0
  let mvp := store mvp 8 ((right + left) / (right - left))
  let mvp := store mvp 9 ((top + bottom) / (top - bottom))
  let mvp := store mvp 10 (-(far + near) / (far - near))
  let mvp := store mvp 11 (-1)
  let mvp := store mvp 12 0
  let mvp := store mvp 13 0
  let mvp := store mvp 14 (-(2 * far * near) / (far - near))
  let mvp := store mvp 15 0
  mvp

/-- `auxGlCross(dst, a, b)`, lines 210-214. -/
def auxGlCross (dst a b : Buf α) : Buf α :=
  let dst := store dst 0 (a 1 * b 2 - a 2 * b 1)
  let dst := store dst 1 (a 2 * b 0 - a 0 * b 2)
  let dst := store dst 2 (a 0 * b 1 - a 1 * b 0)
  dst

/-- `auxGlNormalize(v)`, lines 216-226: in place, so the result is the
contents of `v` after the call. -/
def auxGlNormalize [DecidableEq α] (sqrtf : α → α) (v : Buf α) : Buf α :=
  let r := sqrtf (v 0 * v 0 + v 1 * v 1 + v 2 * v 2)
  if r = 0 then v
  else
    let r := 1 / r
    let v := store v 0 (v 0 * r)
    let v := store v 1 (v 1 * r)
    let v := store v 2 (v 2 * r)
    v

/-- `auxGlMvpIdentity(mat)`, lines 228-233. -/
def auxGlMvpIdentity (mat : Buf α) : Buf α :=
  let mat := store mat 0 1
  let mat := store mat 4 0
  let mat := store mat 8 0
  let mat := store mat 12 0
  let mat := store mat 1 0
  let mat := store mat 5 1
  let mat := store mat 9 0
  let mat := store mat 13 0
  let mat := store mat 2 0
  let mat := store mat 6 0
  let mat := store mat 10 1
  let mat := store mat 14 0
  let mat := store mat 3 0
  let mat := store mat 7 0
  let mat := store mat 11 0
  let mat := store mat 15 1
  mat

/-- Body of the inner loop of `auxGlMatrixMultiply` at `(y, x)`: the state is
the output buffer and the running index `i`. -/
def multiplyStep (a b : Buf α) (y : Nat) (st : Buf α × Nat) (x : Nat) :
    Buf α × Nat :=
  let r := y <<< 2
  (store st.1 st.2
      (a (r + 0) * b (x + 0) +
       a (r + 1) * b (x + 4) +
       a (r + 2) * b (x + 8) +
       a (r + 3) * b (x + 12)),
   st.2 + 1)

/-- `auxGlMatrixMultiply(mat, a, b)`, lines 235-250: `for y in 0..3`,
`for x in 0..3`, with `i` starting at 0. -/
def auxGlMatrixMultiply (mat a b : Buf α) : Buf α :=
  ((List.range 4).foldl
    (fun st y => (List.range 4).foldl (multiplyStep a b y) st)
    (mat, 0)).1

/-- The array initialiser `float v[3] = { x, y, z }`. -/
def vec3 (x y z : α) : Buf α :=
  store (store (store uninit 0 x) 1 y) 2 z

/-- `auxGlMvpLookAt(mat, eye, at, up)`, lines 252-292. -/
def auxGlMvpLookAt [DecidableEq α] (sqrtf : α → α)
    (mat eye at_ up : Buf α) : Buf α :=
  let forw : Buf α := vec3 (at_ 0 - eye 0) (at_ 1 - eye 1) (at_ 2 - eye 2)
  let forw := auxGlNormalize sqrtf forw
  let side := auxGlCross uninit up forw
  let side := auxGlNormalize sqrtf side
  let nup := auxGlCross uninit forw side
  let m0 := auxGlMvpIdentity uninit
  let m0 := store m0 0 (side 0)
  let m0 := store m0 4 (side 1)
  let m0 := store m0 8 (side 2)
  let m0 := store m0 1 (nup 0)
  let m0 := store m0 5 (nup 1)
  let m0 := store m0 9 (nup 2)
  let m0 := store m0 2 (-forw 0)
  let m0 := store m0 6 (-forw 1)
  let m0 := store m0 10 (-forw 2)
  let m1 := auxGlMvpIdentity uninit
  let m1 := store m1 12 (-eye 0)
  let m1 := store m1 13 (-eye 1)
  let m1 := store m1 14 (-eye 2)
  auxGlMatrixMultiply mat m1 m0

/-- The local `forw` of `auxGlMvpLookAt` after line 261. -/
def lookAtForw [DecidableEq α] (sqrtf : α → α) (eye at_ : Buf α) : Buf α :=
  auxGlNormalize sqrtf (vec3 (at_ 0 - eye 0) (at_ 1 - eye 1) (at_ 2 - eye 2))

/-- The local `side` of `auxGlMvpLookAt` after line 264. -/
def lookAtSide [DecidableEq α] (sqrtf : α → α) (eye at_ up : Buf α) : Buf α :=
  auxGlNormalize sqrtf (auxGlCross uninit up (lookAtForw sqrtf eye at_))

/-- The local `nup` of `auxGlMvpLookAt` after line 267. -/
def lookAtNup [DecidableEq α] (sqrtf : α → α) (eye at_ up : Buf α) : Buf α :=
  auxGlCross uninit (lookAtForw sqrtf eye at_) (lookAtSide sqrtf eye at_ up)

/-- The local `m0` of `auxGlMvpLookAt` after line 282, from the three
vectors. -/
def lookAtM0 (side nup forw : Buf α) : Buf α :=
  let m0 := auxGlMvpIdentity uninit
  let m0 := store m0 0 (side 0)
  let m0 := store m0 4 (side 1)
  let m0 := store m0 8 (side 2)
  let m0 := store m0 1 (nup 0)
  let m0 := store m0 5 (nup 1)
  let m0 := store m0 9 (nup 2)
  let m0 := store m0 2 (-forw 0)
  let m0 := store m0 6 (-forw 1)
  let m0 := store m0 10 (-forw 2)
  m0

/-- The local `m1` of `auxGlMvpLookAt` after line 289. -/
def lookAtM1 (eye : Buf α) : Buf α :=
  let m1 := auxGlMvpIdentity uninit
  let m1 := store m1 12 (-eye 0)
  let m1 := store m1 13 (-eye 1)
  let m1 := store m1 14 (-eye 2)
  m1

/-- `auxGlMvpCamera(mvp, fov, screenratio, near, far, eye, at, up)`,
lines 294-305. -/
def auxGlMvpCamera [DecidableEq α] (tanf sqrtf : α → α) (mvp : Buf α)
    (fov screenratio near far : α) (eye at_ up : Buf α) : Buf α :=
  let persp := auxGlMvpPerspective tanf uninit fov screenratio near far
  let look := auxGlMvpLookAt sqrtf uninit eye at_ up
  auxGlMatrixMultiply mvp look persp

/-- `auxGlMvpOrtho(mvp, x0, y0, x1, y1)`, lines 307-320.  The chained
assignment of line 310 stores right to left. -/
def auxGlMvpOrtho (mvp : Buf α) (x0 y0 x1 y1 : α) : Buf α :=
  let mvp := store mvp 9 0
  let mvp := store mvp 8 0
  let mvp := store mvp 7 0
  let mvp := store mvp 6 0
  let mvp := store mvp 4 0
  let mvp := store mvp 3 0
  let mvp := store mvp 2 0
  let mvp := store mvp 1 0
  let mvp := store mvp 0 (2 / (x1 - x0))
  let mvp := store mvp 5 (2 / (y1 - y0))
  let mvp := store mvp 10 1
  let mvp := store mvp 15 1
  let mvp := store mvp 12 (-(x1 + x0) / (x1 - x0))
  let mvp := store mvp 13 (-(y1 + y0) / (y1 - y0))
  let mvp := store mvp 14 0
  mvp

/-! ### Reading a buffer as a column-major matrix -/

/-- The column-major matrix in `m` (entry at row `r`, column `c` is
`m[c*4+r]`) applied to the column vector `p`:
`result[r] = sum over c of m[c*4+r] * p[c]`. -/
def applyColMajor (m : Buf α) (p : α × α × α × α) : α × α × α × α :=
  (m 0 * p.1 + m 4 * p.2.1 + m 8 * p.2.2.1 + m 12 * p.2.2.2,
   m 1 * p.1 + m 5 * p.2.1 + m 9 * p.2.2.1 + m 13 * p.2.2.2,
   m 2 * p.1 + m 6 * p.2.1 + m 10 * p.2.2.1 + m 14 * p.2.2.2,
   m 3 * p.1 + m 7 * p.2.1 + m 11 * p.2.2.1 + m 15 * p.2.2.2)

/-- Entry `(r, c)` of the product `A × B` of the column-major matrices held
in `a` and `b`: `sum over k in 0..3 of a[k*4+r] * b[c*4+k]`. -/
def colMajorProd (a b : Buf α) (r c : Nat) : α :=
  ∑ k in Finset.range 4, a (k * 4 + r) * b (c * 4 + k)

/-- The Euclidean norm of the 3-vector in `v`, with `sqrtf` the square root. -/
def norm3 (sqrtf : α → α) (v : Buf α) : α :=
  sqrtf (v 0 * v 0 + v 1 * v 1 + v 2 * v 2)

/-- The reference normalisation: a vector of norm 0 is returned as it is,
any other vector has each of its three components divided by the norm. -/
def normalizeRef [DecidableEq α] (sqrtf : α → α) (v : Buf α) : Buf α :=
  fun i => if norm3 sqrtf v = 0 then v i
    else if i < 3 then v i / norm3 sqrtf v else v i

/-- Entry `(r, c)` of the product `A × B` of the row-major matrices held in
`a` and `b` (entry at row `r`, column `c` is element `r*4+c`). -/
def rowMajorProd (a b : Buf α) (r c : Nat) : α :=
  ∑ k in Finset.range 4, a (r * 4 + k) * b (k * 4 + c)

/-- The dot product of the 3-vectors in `a` and `b`. -/
def dot3 (a b : Buf α) : α :=
  a 0 * b 0 + a 1 * b 1 + a 2 * b 2

/-- Two 3-vectors are parallel when their cross product is the zero vector
(the zero vector is parallel to every vector). -/
def parallel3 (a b : Buf α) : Prop :=
  a 1 * b 2 - a 2 * b 1 = 0 ∧ a 2 * b 0 - a 0 * b 2 = 0 ∧
    a 0 * b 1 - a 1 * b 0 = 0

/-- The determinant of the upper-left 3x3 block of the column-major matrix in
`m`, expanded along its first row. -/
def det3 (m : Buf α) : α :=
  m 0 * (m 5 * m 10 - m 9 * m 6) - m 4 * (m 1 * m 10 - m 9 * m 2) +
    m 8 * (m 1 * m 6 - m 5 * m 2)

/-- Entry `(i, j)` of `B × Bᵀ` for the upper-left 3x3 block `B` of the
column-major matrix in `m`: the dot product of rows `i` and `j`. -/
def blockRowDot (m : Buf α) (i j : Nat) : α :=
  m i * m j + m (4 + i) * m (4 + j) + m (8 + i) * m (8 + j)

/-! ### The look-at matrix in the words of the specification -/

/-- The standard 3D cross product `a × b`. -/
def crossRef (a b : Buf α) : Buf α :=
  fun i =>
    if i = 0 then a 1 * b 2 - a 2 * b 1
    else if i = 1 then a 2 * b 0 - a 0 * b 2
    else if i = 2 then a 0 * b 1 - a 1 * b 0
    else 0

/-- The difference `a - b` of two 3-vectors. -/
def sub3 (a b : Buf α) : Buf α :=
  fun i => a i - b i

/-- The vector `forward = normalize(target - eye)`. -/
def refForward [DecidableEq α] (sqrtf : α → α) (eye target : Buf α) : Buf α :=
  normalizeRef sqrtf (sub3 target eye)

/-- The vector `side = normalize(up × forward)`. -/
def refSide [DecidableEq α] (sqrtf : α → α) (eye target up : Buf α) : Buf α :=
  normalizeRef sqrtf (crossRef up (refForward sqrtf eye target))

/-- The vector `trueUp = forward × side`. -/
def refTrueUp [DecidableEq α] (sqrtf : α → α) (eye target up : Buf α) :
    Buf α :=
  crossRef (refForward sqrtf eye target) (refSide sqrtf eye target up)

/-- The column-major matrix `R` with rows `(side, 0)`, `(trueUp, 0)`,
`(-forward, 0)`, `(0, 0, 0, 1)`: the entry at row `r`, column `c` is element
`c*4+r`. -/
def rotationRef (side trueUp forward : Buf α) : Buf α :=
  fun i =>
    if i / 4 < 3 then
      if i % 4 = 0 then side (i / 4)
      else if i % 4 = 1 then trueUp (i / 4)
      else if i % 4 = 2 then -forward (i / 4)
      else 0
    else if i = 15 then 1
    else 0

/-- The column-major matrix `T` of the translation by `t`: the identity with
`t` in the first three rows of the last column. -/
def translationRef (t : Buf α) : Buf α :=
  fun i =>
    if i = 0 ∨ i = 5 ∨ i = 10 ∨ i = 15 then 1
    else if i = 12 then t 0
    else if i = 13 then t 1
    else if i = 14 then t 2
    else 0

/-- The negation `-v` of a 3-vector. -/
def neg3 (v : Buf α) : Buf α :=
  fun i => -v i

/-! ### Shader builder

The driver is an oracle: what each value-returning entry point answers is a
function of the calls made so far.  The routines thread the list of driver
calls, oldest first.  The diagnostics macros `auxGlCheckError` and
`auxGlErr` expand to nothing unless `AUXGL_DEBUG` is defined and are left
out. -/

abbrev GLuint := Nat

abbrev GLenum := Nat

abbrev GLint := Int

/-- The value of `GL_FALSE` in the OpenGL headers. -/
def GL_FALSE : GLint := 0

/-- The value of `GL_TRUE` in the OpenGL headers. -/
def GL_TRUE : GLint := 1

/-- The value of `GL_VERTEX_SHADER` in the OpenGL headers. -/
def GL_VERTEX_SHADER : GLenum := 0x8B31

/-- The value of `GL_FRAGMENT_SHADER` in the OpenGL headers. -/
def GL_FRAGMENT_SHADER : GLenum := 0x8B30

/-- One call into the driver, with its arguments and, for the entry points
that return a value, the value returned. -/
inductive GlCall where
  | createShader (type : GLenum) (ret : GLuint)
  | shaderSource (shad : GLuint) (src : String)
  | compileShader (shad : GLuint)
  | getShaderiv (id : GLuint) (result : GLint)
  | getShaderInfoLog (id : GLuint)
  | createProgram (ret : GLuint)
  | attachShader (program shad : GLuint)
  | bindAttribLocation (program : GLuint) (index : Nat) (name : String)
  | linkProgram (program : GLuint)
  | deleteShader (shad : GLuint)
  deriving DecidableEq, Repr

/-- The driver.  `glCreateShader log type` is the handle returned by
`glCreateShader(type)` after the calls in `log`; `glGetShaderiv log id` is the
value left in `result` by `glGetShaderiv(id, GL_COMPILE_STATUS, &result)`;
`glCreateProgram log` is the handle returned by `glCreateProgram()`. -/
structure Driver where
  glCreateShader : List GlCall → GLenum → GLuint
  glGetShaderiv : List GlCall → GLuint → GLint
  glCreateProgram : List GlCall → GLuint

/-- `auxGlCheckShader(id)`, lines 100-116. -/
def auxGlCheckShader (drv : Driver) (log : List GlCall) (id : GLuint) :
    GLint × List GlCall :=
  let result := drv.glGetShaderiv log id
  let log := log ++ [GlCall.getShaderiv id result]
  if result ≠ GL_TRUE then
    let log := log ++ [GlCall.getShaderInfoLog id]
    (GL_FALSE, log)
  else
    (GL_TRUE, log)

/-- `auxGlShader(src, type)`, lines 118-130. -/
def auxGlShader (drv : Driver) (log : List GlCall) (src : String)
    (type : GLenum) : GLuint × List GlCall :=
  let shad := drv.glCreateShader log type
  let log := log ++ [GlCall.createShader type shad]
  let log := log ++ [GlCall.shaderSource shad src]
  let log := log ++ [GlCall.compileShader shad]
  let checked := auxGlCheckShader drv log shad
  let log := checked.2
  if checked.1 ≠ GL_TRUE then (0, log)
  else (shad, log)

/-- The loop of lines 159-163 of `auxGlProgram` over the names that stand
before the null terminator of `attributes`, from the current `attribId`. -/
def bindAttribs (program : GLuint) :
    Nat → List String → List GlCall → List GlCall
  | _, [], log => log
  | attribId, name :: attributes, log =>
    bindAttribs program (attribId + 1) attributes
      (log ++ [GlCall.bindAttribLocation program attribId name])

/-- `auxGlProgram(srcVert, srcFrag, attributes)`, lines 132-173.  The
argument `attributes` is `none` for a null pointer and otherwise the names
that stand before the null terminator of the array. -/
def auxGlProgram (drv : Driver) (log : List GlCall) (srcVert srcFrag : String)
    (attributes : Option (List String)) : GLuint × List GlCall :=
  let vert := auxGlShader drv log srcVert GL_VERTEX_SHADER
  let shadVert := vert.1
  let log := vert.2
  if shadVert = 0 then (0, log)
  else
    let frag := auxGlShader drv log srcFrag GL_FRAGMENT_SHADER
    let shadFrag := frag.1
    let log := frag.2
    if shadFrag = 0 then
      let log := log ++ [GlCall.deleteShader shadFrag]
      (0, log)
    else
      let program := drv.glCreateProgram log
      let log := log ++ [GlCall.createProgram program]
      if program = 0 then
        let log := log ++ [GlCall.deleteShader shadVert]
        let log := log ++ [GlCall.deleteShader shadFrag]
        (0, log)
      else
        let log := log ++ [GlCall.attachShader program shadVert]
        let log := log ++ [GlCall.attachShader program shadFrag]
        let attribId := 0
        let log :=
          match attributes with
          | none => log
          | some names => bindAttribs program attribId names log
        let log := log ++ [GlCall.linkProgram program]
        let log := log ++ [GlCall.deleteShader shadVert]
        let log := log ++ [GlCall.deleteShader shadFrag]
        (program, log)

/-! ### Reading a list of driver calls -/

/-- The compile status the driver reports for a stage that `auxGlShader`
builds from `src` after the calls in `log`. -/
def stageStatus (drv : Driver) (log : List GlCall) (src : String)
    (type : GLenum) : GLint :=
  drv.glGetShaderiv
    (log ++ [GlCall.createShader type (drv.glCreateShader log type),
      GlCall.shaderSource (drv.glCreateShader log type) src,
      GlCall.compileShader (drv.glCreateShader log type)])
    (drv.glCreateShader log type)

/-- The vertex stage of `auxGlProgram`: the handle `shadVert` and the calls
made up to line 135. -/
def vertStage (drv : Driver) (log : List GlCall) (srcVert : String) :
    GLuint × List GlCall :=
  auxGlShader drv log srcVert GL_VERTEX_SHADER

/-- The fragment stage of `auxGlProgram`, built after the vertex stage: the
handle `shadFrag` and the calls made up to line 138. -/
def fragStage (drv : Driver) (log : List GlCall) (srcVert srcFrag : String) :
    GLuint × List GlCall :=
  auxGlShader drv (vertStage drv log srcVert).2 srcFrag GL_FRAGMENT_SHADER

/-- The handle `glCreateProgram` returns at line 145, after both stages. -/
def createdProgram (drv : Driver) (log : List GlCall)
    (srcVert srcFrag : String) : GLuint :=
  drv.glCreateProgram (fragStage drv log srcVert srcFrag).2

/-- The calls of `after` that come after the calls of `before`. -/
def callsSince (before after : List GlCall) : List GlCall :=
  after.drop before.length

/-- Whether a call is `glDeleteShader`. -/
def isDeleteShader : GlCall → Bool
  | GlCall.deleteShader _ => true
  | _ => false

/-- Whether a call is `glCreateProgram`. -/
def isCreateProgram : GlCall → Bool
  | GlCall.createProgram _ => true
  | _ => false

/-- Whether a call is `glBindAttribLocation`. -/
def isBindAttribLocation : GlCall → Bool
  | GlCall.bindAttribLocation _ _ _ => true
  | _ => false

/-- Whether a call is one of `glCreateProgram`, `glAttachShader`,
`glBindAttribLocation`, `glLinkProgram`. -/
def isProgramCall : GlCall → Bool
  | GlCall.createProgram _ => true
  | GlCall.attachShader _ _ => true
  | GlCall.bindAttribLocation _ _ _ => true
  | GlCall.linkProgram _ => true
  | _ => false

/-- The shader objects alive after the calls `calls`, given the objects
`live` alive before them: `glCreateShader` makes the object it returns
alive (0 is no object), `glDeleteShader` ends the object it is passed. -/
def liveAfter (live : List GLuint) : List GlCall → List GLuint
  | [] => live
  | GlCall.createShader _ ret :: rest =>
    liveAfter (if ret = 0 then live else live ++ [ret]) rest
  | GlCall.deleteShader shad :: rest =>
    liveAfter (live.erase shad) rest
  | _ :: rest => liveAfter live rest

/-- The shader objects alive after a list of calls made from a state with no
live shader object. -/
def liveShaders (calls : List GlCall) : List GLuint :=
  liveAfter [] calls

/-- The calls `auxGlShader` makes for a stage built from `src` after the
calls in `log`: create, source, compile, status query, and the info log
query when the status is not `GL_TRUE`. -/
def stageCalls (drv : Driver) (log : List GlCall) (src : String)
    (type : GLenum) : List GlCall :=
  [GlCall.createShader type (drv.glCreateShader log type),
    GlCall.shaderSource (drv.glCreateShader log type) src,
    GlCall.compileShader (drv.glCreateShader log type),
    GlCall.getShaderiv (drv.glCreateShader log type)
      (stageStatus drv log src type)] ++
  if stageStatus drv log src type ≠ GL_TRUE then
    [GlCall.getShaderInfoLog (drv.glCreateShader log type)]
  else []

/-- The `glBindAttribLocation` calls that bind the `i`-th name of `names`
(from 0) to location `i`, in list order. -/
def bindCalls (program : GLuint) (names : List String) : List GlCall :=
  names.enum.map (fun p => GlCall.bindAttribLocation program p.1 p.2)

/-- A driver that hands out shader handle 1 for a vertex stage and 2 for any
other stage, reports that shader 1 compiled and that no other shader did, and
hands out program handle 3. -/
def fragmentFailsDriver : Driver where
  glCreateShader := fun _ type => if type = GL_VERTEX_SHADER then 1 else 2
  glGetShaderiv := fun _ id => if id = 1 then GL_TRUE else GL_FALSE
  glCreateProgram := fun _ => 3

/-- A driver that hands out shader handle 1 for a vertex stage and 2 for any
other stage, reports that every shader compiled, and hands out program
handle 3. -/
def workingDriver : Driver where
  glCreateShader := fun _ type => if type = GL_VERTEX_SHADER then 1 else 2
  glGetShaderiv := fun _ _ => GL_TRUE
  glCreateProgram := fun _ => 3

/-- A driver that hands out shader handle 1 for a vertex stage and 2 for any
other stage, reports that no shader compiled, and hands out program
handle 3. -/
def vertexFailsDriver : Driver where
  glCreateShader := fun _ type => if type = GL_VERTEX_SHADER then 1 else 2
  glGetShaderiv := fun _ _ => GL_FALSE
  glCreateProgram := fun _ => 3

end Defs

/-! ### Unfolding lemmas -/

section Lemmas

variable {α : Type}

theorem store_apply (m : Buf α) (i j : Nat) (v : α) :
    store m i v j = if j = i then v else m j := rfl

@[simp] theorem store_same (m : Buf α) (i : Nat) (v : α) :
    store m i v i = v := by
  simp [store]

@[simp] theorem store_ne (m : Buf α) {i j : Nat} (v : α) (h : j ≠ i) :
    store m i v j = m j := by
  simp [store, h]

variable [Field α]

theorem range_four : List.range 4 = [0, 1, 2, 3] := by decide

theorem shl_two (y : Nat) : y <<< 2 = y * 4 := by
  simp [Nat.shiftLeft_eq]

/-- The sixteen stores of `auxGlMatrixMultiply`, in the order the loops make
them. -/
theorem auxGlMatrixMultiply_unroll (mat a b : Buf α) :
    auxGlMatrixMultiply mat a b =
      store (store (store (store (store (store (store (store
      (store (store (store (store (store (store (store (store mat
        0 (a 0 * b 0 + a 1 * b 4 + a 2 * b 8 + a 3 * b 12))
        1 (a 0 * b 1 + a 1 * b 5 + a 2 * b 9 + a 3 * b 13))
        2 (a 0 * b 2 + a 1 * b 6 + a 2 * b 10 + a 3 * b 14))
        3 (a 0 * b 3 + a 1 * b 7 + a 2 * b 11 + a 3 * b 15))
        4 (a 4 * b 0 + a 5 * b 4 + a 6 * b 8 + a 7 * b 12))
        5 (a 4 * b 1 + a 5 * b 5 + a 6 * b 9 + a 7 * b 13))
        6 (a 4 * b 2 + a 5 * b 6 + a 6 * b 10 + a 7 * b 14))
        7 (a 4 * b 3 + a 5 * b 7 + a 6 * b 11 + a 7 * b 15))
        8 (a 8 * b 0 + a 9 * b 4 + a 10 * b 8 + a 11 * b 12))
        9 (a 8 * b 1 + a 9 * b 5 + a 10 * b 9 + a 11 * b 13))
        10 (a 8 * b 2 + a 9 * b 6 + a 10 * b 10 + a 11 * b 14))
        11 (a 8 * b 3 + a 9 * b 7 + a 10 * b 11 + a 11 * b 15))
        12 (a 12 * b 0 + a 13 * b 4 + a 14 * b 8 + a 15 * b 12))
        13 (a 12 * b 1 + a 13 * b 5 + a 14 * b 9 + a 15 * b 13))
        14 (a 12 * b 2 + a 13 * b 6 + a 14 * b 10 + a 15 * b 14))
        15 (a 12 * b 3 + a 13 * b 7 + a 14 * b 11 + a 15 * b 15) := by
  simp only [auxGlMatrixMultiply, multiplyStep, range_four, List.foldl, shl_two]

/-- Two buffers with the same sixteen entries are the same matrix. -/
theorem applyColMajor_congr {m n : Buf α} (h : ∀ i, i < 16 → m i = n i)
    (p : α × α × α × α) : applyColMajor m p = applyColMajor n p := by
  simp only [applyColMajor]
  rw [h 0 (by norm_num), h 1 (by norm_num), h 2 (by norm_num),
    h 3 (by norm_num), h 4 (by norm_num), h 5 (by norm_num),
    h 6 (by norm_num), h 7 (by norm_num), h 8 (by norm_num),
    h 9 (by norm_num), h 10 (by norm_num), h 11 (by norm_num),
    h 12 (by norm_num), h 13 (by norm_num), h 14 (by norm_num),
    h 15 (by norm_num)]

/-- Applying the buffer written by `auxGlMatrixMultiply(mat, a, b)` is
applying `a` first and `b` second. -/
theorem applyColMajor_multiply (mat a b : Buf α) (p : α × α × α × α) :
    applyColMajor (auxGlMatrixMultiply mat a b) p =
      applyColMajor b (applyColMajor a p) := by
  simp only [applyColMajor, auxGlMatrixMultiply_unroll, store_apply,
    Nat.reduceEqDiff, reduceIte, Prod.mk.injEq]
  refine ⟨?_, ?_, ?_, ?_⟩ <;> ring

/-- The sixteen entries `auxGlMatrixMultiply` writes do not depend on what
the output buffer held, and depend only on the first sixteen entries of its
inputs. -/
theorem auxGlMatrixMultiply_congr {a c b d : Buf α} (m n : Buf α)
    (hac : ∀ i, i < 16 → a i = c i) (hbd : ∀ i, i < 16 → b i = d i)
    (i : Nat) (hi : i < 16) :
    auxGlMatrixMultiply m a b i = auxGlMatrixMultiply n c d i := by
  have a0 := hac 0 (by norm_num); have a1 := hac 1 (by norm_num)
  have a2 := hac 2 (by norm_num); have a3 := hac 3 (by norm_num)
  have a4 := hac 4 (by norm_num); have a5 := hac 5 (by norm_num)
  have a6 := hac 6 (by norm_num); have a7 := hac 7 (by norm_num)
  have a8 := hac 8 (by norm_num); have a9 := hac 9 (by norm_num)
  have a10 := hac 10 (by norm_num); have a11 := hac 11 (by norm_num)
  have a12 := hac 12 (by norm_num); have a13 := hac 13 (by norm_num)
  have a14 := hac 14 (by norm_num); have a15 := hac 15 (by norm_num)
  have b0 := hbd 0 (by norm_num); have b1 := hbd 1 (by norm_num)
  have b2 := hbd 2 (by norm_num); have b3 := hbd 3 (by norm_num)
  have b4 := hbd 4 (by norm_num); have b5 := hbd 5 (by norm_num)
  have b6 := hbd 6 (by norm_num); have b7 := hbd 7 (by norm_num)
  have b8 := hbd 8 (by norm_num); have b9 := hbd 9 (by norm_num)
  have b10 := hbd 10 (by norm_num); have b11 := hbd 11 (by norm_num)
  have b12 := hbd 12 (by norm_num); have b13 := hbd 13 (by norm_num)
  have b14 := hbd 14 (by norm_num); have b15 := hbd 15 (by norm_num)
  simp only [auxGlMatrixMultiply_unroll, a0, a1, a2, a3, a4, a5, a6, a7, a8,
    a9, a10, a11, a12, a13, a14, a15, b0, b1, b2, b3, b4, b5, b6, b7, b8, b9,
    b10, b11, b12, b13, b14, b15]
  interval_cases i <;> simp only [store_apply, Nat.reduceEqDiff, reduceIte]

/-- `auxGlMvpLookAt` in terms of its locals: the final call multiplies `m1`
and `m0`. -/
theorem auxGlMvpLookAt_eq [DecidableEq α] (sqrtf : α → α)
    (mat eye at_ up : Buf α) :
    auxGlMvpLookAt sqrtf mat eye at_ up =
      auxGlMatrixMultiply mat (lookAtM1 eye)
        (lookAtM0 (lookAtSide sqrtf eye at_ up) (lookAtNup sqrtf eye at_ up)
          (lookAtForw sqrtf eye at_)) := rfl

/-- The translation `m1` of `auxGlMvpLookAt` applied to a point. -/
theorem applyColMajor_lookAtM1 (eye : Buf α) (p : α × α × α × α) :
    applyColMajor (lookAtM1 eye) p =
      (p.1 - eye 0 * p.2.2.2, p.2.1 - eye 1 * p.2.2.2,
       p.2.2.1 - eye 2 * p.2.2.2, p.2.2.2) := by
  simp only [applyColMajor, lookAtM1, auxGlMvpIdentity, store_apply,
    Nat.reduceEqDiff, reduceIte, Prod.mk.injEq]
  refine ⟨?_, ?_, ?_, ?_⟩ <;> ring

/-- The rotation `m0` of `auxGlMvpLookAt` applied to a point. -/
theorem applyColMajor_lookAtM0 (side nup forw : Buf α) (p : α × α × α × α) :
    applyColMajor (lookAtM0 side nup forw) p =
      (side 0 * p.1 + side 1 * p.2.1 + side 2 * p.2.2.1,
       nup 0 * p.1 + nup 1 * p.2.1 + nup 2 * p.2.2.1,
       -(forw 0 * p.1 + forw 1 * p.2.1 + forw 2 * p.2.2.1), p.2.2.2) := by
  simp only [applyColMajor, lookAtM0, auxGlMvpIdentity, store_apply,
    Nat.reduceEqDiff, reduceIte, Prod.mk.injEq]
  refine ⟨?_, ?_, ?_, ?_⟩ <;> ring

/-- The three entries of an initialised 3-vector. -/
theorem vec3_entries (x y z : α) :
    vec3 x y z 0 = x ∧ vec3 x y z 1 = y ∧ vec3 x y z 2 = z := by
  simp only [vec3, store_apply, Nat.reduceEqDiff, reduceIte, and_self]

theorem vec3_zero (x y z : α) : vec3 x y z 0 = x := (vec3_entries x y z).1

theorem vec3_one (x y z : α) : vec3 x y z 1 = y := (vec3_entries x y z).2.1

theorem vec3_two (x y z : α) : vec3 x y z 2 = z := (vec3_entries x y z).2.2

/-- The three entries `auxGlCross` writes. -/
theorem auxGlCross_entries (dst a b : Buf α) :
    auxGlCross dst a b 0 = a 1 * b 2 - a 2 * b 1 ∧
    auxGlCross dst a b 1 = a 2 * b 0 - a 0 * b 2 ∧
    auxGlCross dst a b 2 = a 0 * b 1 - a 1 * b 0 := by
  simp only [auxGlCross, store_apply, Nat.reduceEqDiff, reduceIte, and_self]

/-- `auxGlNormalize` scales the three components by one common factor: 1
when the norm is 0, the inverse of the norm otherwise. -/
theorem auxGlNormalize_entries [DecidableEq α] (sqrtf : α → α) (v : Buf α) :
    auxGlNormalize sqrtf v 0 =
      (if norm3 sqrtf v = 0 then 1 else 1 / norm3 sqrtf v) * v 0 ∧
    auxGlNormalize sqrtf v 1 =
      (if norm3 sqrtf v = 0 then 1 else 1 / norm3 sqrtf v) * v 1 ∧
    auxGlNormalize sqrtf v 2 =
      (if norm3 sqrtf v = 0 then 1 else 1 / norm3 sqrtf v) * v 2 := by
  unfold auxGlNormalize norm3
  by_cases h : sqrtf (v 0 * v 0 + v 1 * v 1 + v 2 * v 2) = 0
  · simp only [h, reduceIte, one_mul, and_self]
  · simp only [h, reduceIte, store_apply, Nat.reduceEqDiff, mul_comm,
      and_self]

/-- Entries of a buffer past the third are left alone by `auxGlNormalize`. -/
theorem auxGlNormalize_rest [DecidableEq α] (sqrtf : α → α) (v : Buf α)
    (i : Nat) (hi : 3 ≤ i) : auxGlNormalize sqrtf v i = v i := by
  unfold auxGlNormalize
  by_cases h : sqrtf (v 0 * v 0 + v 1 * v 1 + v 2 * v 2) = 0
  · simp only [h, reduceIte]
  · have h0 : i ≠ 0 := by omega
    have h1 : i ≠ 1 := by omega
    have h2 : i ≠ 2 := by omega
    simp only [h, reduceIte, store_apply, h0, h1, h2]

end Lemmas

/-! ### Matrix product and composition -/

section Multiply

/-- C1 (as the code has it): reading every buffer as a column-major matrix,
`auxGlMatrixMultiply(out, a, b)` writes the product `b × a`, that is
`out[c*4+r] = sum over k in 0..3 of b[k*4+r] * a[c*4+k]` for every row `r`
and column `c` in 0..3. -/
theorem multiply_colMajor_b_times_a (mat a b : Buf ℝ) (r c : Fin 4) :
    auxGlMatrixMultiply mat a b (c.val * 4 + r.val) =
      colMajorProd b a r.val c.val := by
  fin_cases r <;> fin_cases c <;>
    simp only [auxGlMatrixMultiply_unroll, colMajorProd, Finset.sum_range_succ,
      Finset.sum_range_zero, store_apply, Fin.zero_eta, Fin.mk_one,
      Fin.reduceFinMk, Fin.val_zero, Fin.val_one, Fin.val_two, Fin.isValue,
      Fin.coe_ofNat_eq_mod, Nat.reduceMod, Nat.reduceMul, Nat.reduceAdd,
      Nat.reduceEqDiff, reduceIte, zero_add, add_zero, zero_mul] <;>
    ring

/-- C1 as stated fails: with `a` having its only nonzero entry at index 1
and `b` at index 4, the code writes `out[0] = 1`, while the column-major
product `a × b` has 0 at row 0, column 0. -/
theorem multiply_colMajor_a_times_b_fails :
    ¬ ∀ (mat a b : Buf ℝ) (r c : Fin 4),
        auxGlMatrixMultiply mat a b (c.val * 4 + r.val) =
          colMajorProd a b r.val c.val := by
  intro h
  have h0 := h uninit (fun j => if j = 1 then 1 else 0)
    (fun j => if j = 4 then 1 else 0) 0 0
  simp only [auxGlMatrixMultiply_unroll, colMajorProd, Finset.sum_range_succ,
    Finset.sum_range_zero, store_apply, Fin.val_zero, Nat.reduceMul,
    Nat.reduceAdd, Nat.reduceEqDiff, reduceIte, zero_add, add_zero,
    zero_mul] at h0
  norm_num at h0

/-- C2: with `I` the buffer written by `auxGlMvpIdentity`, both
`auxGlMatrixMultiply(out, I, M)` and `auxGlMatrixMultiply(out, M, I)` write
the sixteen entries of `M`. -/
theorem multiply_identity (out1 out2 ident M : Buf ℝ) (i : Fin 16) :
    auxGlMatrixMultiply out1 (auxGlMvpIdentity ident) M i.val = M i.val ∧
    auxGlMatrixMultiply out2 M (auxGlMvpIdentity ident) i.val = M i.val := by
  fin_cases i <;>
    simp only [auxGlMatrixMultiply_unroll, auxGlMvpIdentity, store_apply,
      Fin.zero_eta, Fin.mk_one, Fin.reduceFinMk, Fin.val_zero, Fin.val_one,
      Fin.val_two, Fin.isValue, Fin.coe_ofNat_eq_mod, Nat.reduceMod,
      Nat.reduceEqDiff, reduceIte] <;>
    constructor <;> ring

/-- C3: `auxGlMatrixMultiply` is associative on the sixteen entries:
multiplying the result of `multiply(A, B)` by `C` gives the same entries as
multiplying `A` by the result of `multiply(B, C)`. -/
theorem multiply_assoc (out1 out2 out3 out4 A B C : Buf ℝ) (i : Fin 16) :
    auxGlMatrixMultiply out1 (auxGlMatrixMultiply out2 A B) C i.val =
      auxGlMatrixMultiply out3 A (auxGlMatrixMultiply out4 B C) i.val := by
  fin_cases i <;>
    simp only [auxGlMatrixMultiply_unroll, store_apply, Fin.zero_eta,
      Fin.mk_one, Fin.reduceFinMk, Fin.val_zero, Fin.val_one, Fin.val_two,
      Fin.isValue, Fin.coe_ofNat_eq_mod, Nat.reduceMod, Nat.reduceEqDiff,
      reduceIte] <;>
    ring

end Multiply

/-! ### Perspective projection -/

section Perspective

theorem half_eq (fov : ℝ) : fov * 0.5 = fov / 2 := by norm_num [div_eq_mul_inv]

/-- The sixteen entries `auxGlMvpPerspective` writes, as the code computes
them, with `t = tan(fov * 0.5)`. -/
theorem auxGlMvpPerspective_unroll (tanf : ℝ → ℝ) (mvp : Buf ℝ)
    (fov screenratio near far : ℝ) :
    auxGlMvpPerspective tanf mvp fov screenratio near far =
      store (store (store (store (store (store (store (store
      (store (store (store (store (store (store (store (store mvp
        0 (2 * near / (near * tanf (fov * 0.5) - -(near * tanf (fov * 0.5)))))
        1 0) 2 0) 3 0) 4 0)
        5 (2 * near / (near * tanf (fov * 0.5) / screenratio -
            -(near * tanf (fov * 0.5)) / screenratio)))
        6 0) 7 0)
        8 ((near * tanf (fov * 0.5) + -(near * tanf (fov * 0.5))) /
            (near * tanf (fov * 0.5) - -(near * tanf (fov * 0.5)))))
        9 ((near * tanf (fov * 0.5) / screenratio +
            -(near * tanf (fov * 0.5)) / screenratio) /
            (near * tanf (fov * 0.5) / screenratio -
              -(near * tanf (fov * 0.5)) / screenratio)))
        10 (-(far + near) / (far - near)))
        11 (-1)) 12 0) 13 0)
        14 (-(2 * far * near) / (far - near)))
        15 0 := rfl

/-- The sixteen entries `auxGlMvpPerspective` writes do not depend on what
the output buffer held. -/
theorem auxGlMvpPerspective_writes_all (tanf : ℝ → ℝ) (m n : Buf ℝ)
    (fov screenratio near far : ℝ) (i : Nat) (hi : i < 16) :
    auxGlMvpPerspective tanf m fov screenratio near far i =
      auxGlMvpPerspective tanf n fov screenratio near far i := by
  simp only [auxGlMvpPerspective_unroll]
  interval_cases i <;> simp only [store_apply, Nat.reduceEqDiff, reduceIte]

/-- The two scale entries of `auxGlMvpPerspective`, with `t = tan(fov/2)`. -/
theorem perspective_entries_aux (mvp : Buf ℝ) (fov screenratio near far : ℝ)
    (hnear : near ≠ 0) (ht : Real.tan (fov / 2) ≠ 0)
    (hratio : screenratio ≠ 0) :
    auxGlMvpPerspective Real.tan mvp fov screenratio near far 0 =
      1 / Real.tan (fov / 2) ∧
    auxGlMvpPerspective Real.tan mvp fov screenratio near far 5 =
      screenratio / Real.tan (fov / 2) := by
  simp only [auxGlMvpPerspective_unroll, half_eq, store_apply,
    Nat.reduceEqDiff, reduceIte]
  constructor
  · field_simp; ring
  · field_simp; ring

/-- C6: with `t = tan(fov/2)`, for `near ≠ 0`, `t ≠ 0`, `screenratio ≠ 0`
and `far ≠ near`, `auxGlMvpPerspective` writes `m[0] = 1/t`,
`m[5] = screenratio/t` (that is `near` over the vertical half-size
`near*t/screenratio`), `m[10] = -(far+near)/(far-near)`, `m[11] = -1`,
`m[14] = -(2*far*near)/(far-near)` and 0 in every other entry. -/
theorem perspective_entries (mvp : Buf ℝ) (fov screenratio near far : ℝ)
    (hnear : near ≠ 0) (ht : Real.tan (fov / 2) ≠ 0)
    (hratio : screenratio ≠ 0) (_hfar : far ≠ near) :
    auxGlMvpPerspective Real.tan mvp fov screenratio near far 0 =
      1 / Real.tan (fov / 2) ∧
    auxGlMvpPerspective Real.tan mvp fov screenratio near far 5 =
      screenratio / Real.tan (fov / 2) ∧
    auxGlMvpPerspective Real.tan mvp fov screenratio near far 5 =
      near / (near * Real.tan (fov / 2) / screenratio) ∧
    auxGlMvpPerspective Real.tan mvp fov screenratio near far 10 =
      -(far + near) / (far - near) ∧
    auxGlMvpPerspective Real.tan mvp fov screenratio near far 11 = -1 ∧
    auxGlMvpPerspective Real.tan mvp fov screenratio near far 14 =
      -(2 * far * near) / (far - near) ∧
    ∀ i ∈ [1, 2, 3, 4, 6, 7, 8, 9, 12, 13, 15],
      auxGlMvpPerspective Real.tan mvp fov screenratio near far i = 0 := by
  simp only [auxGlMvpPerspective_unroll, half_eq, store_apply,
    Nat.reduceEqDiff, reduceIte, List.mem_cons, List.mem_singleton,
    List.mem_nil_iff, or_false, forall_eq_or_imp, forall_eq, and_true,
    true_and]
  refine ⟨?_, ?_, ?_, ?_, ?_⟩
  · field_simp; ring
  · field_simp; ring
  · field_simp; ring
  · rw [add_neg_cancel, zero_div]
  · rw [neg_div, add_neg_cancel, zero_div]

/-- C6 at `fov = 90°`, `aspect = 1`, `near = 0.1`, `far = 100`: the entries
`m[10]` and `m[11]` are `-(far+near)/(far-near)` and `-1`. -/
theorem perspective_entries_witness :
    (0.1 : ℝ) ≠ 0 ∧ Real.tan (Real.pi / 2 / 2) ≠ 0 ∧ (1 : ℝ) ≠ 0 ∧
    (100 : ℝ) ≠ 0.1 ∧
    auxGlMvpPerspective Real.tan uninit (Real.pi / 2) 1 0.1 100 10 =
      -(100 + 0.1) / (100 - 0.1) ∧
    auxGlMvpPerspective Real.tan uninit (Real.pi / 2) 1 0.1 100 11 = -1 :=
  have h1 : (0.1 : ℝ) ≠ 0 := by norm_num
  have h2 : Real.tan (Real.pi / 2 / 2) ≠ 0 := by
    rw [show Real.pi / 2 / 2 = Real.pi / 4 by ring, Real.tan_pi_div_four]
    exact one_ne_zero
  have h3 : (1 : ℝ) ≠ 0 := one_ne_zero
  have h4 : (100 : ℝ) ≠ 0.1 := by norm_num
  have h := perspective_entries uninit (Real.pi / 2) 1 0.1 100 h1 h2 h3 h4
  ⟨h1, h2, h3, h4, h.2.2.2.1, h.2.2.2.2.1⟩

/-- C7 as stated fails: at `fov = 90°`, `screenratio = 2`, `near = 1`,
`far = 2` the code writes `m[5] = 2`, not `1/tan(fov/2) = 1`. -/
theorem perspective_fov_not_vertical :
    ¬ ∀ (mvp : Buf ℝ) (fov screenratio near far : ℝ), 0 < near → near < far →
        0 < screenratio → 0 < fov → fov < Real.pi →
        auxGlMvpPerspective Real.tan mvp fov screenratio near far 5 =
          1 / Real.tan (fov / 2) ∧
        auxGlMvpPerspective Real.tan mvp fov screenratio near far 0 =
          auxGlMvpPerspective Real.tan mvp fov screenratio near far 5 /
            screenratio := by
  intro h
  have h5 := (h uninit (Real.pi / 2) 2 1 2 one_pos one_lt_two two_pos
    (by positivity) (by linarith [Real.pi_pos])).1
  simp only [auxGlMvpPerspective_unroll, half_eq, store_apply,
    Nat.reduceEqDiff, reduceIte] at h5
  rw [show Real.pi / 2 / 2 = Real.pi / 4 by ring, Real.tan_pi_div_four] at h5
  norm_num at h5

/-- C7 (as the code has it): `fov` is the horizontal field of view.  For
`near > 0`, `far > near`, `screenratio > 0` and `0 < fov < π` the X scale is
`m[0] = 1/tan(fov/2)`, and `m[0] = m[5]/screenratio`, so that the Y scale is
`m[5] = screenratio/tan(fov/2)`. -/
theorem perspective_fov_is_horizontal (mvp : Buf ℝ)
    (fov screenratio near far : ℝ) (hnear : 0 < near) (_hfar : near < far)
    (hratio : 0 < screenratio) (hfov0 : 0 < fov) (hfov1 : fov < Real.pi) :
    auxGlMvpPerspective Real.tan mvp fov screenratio near far 0 =
      1 / Real.tan (fov / 2) ∧
    auxGlMvpPerspective Real.tan mvp fov screenratio near far 0 =
      auxGlMvpPerspective Real.tan mvp fov screenratio near far 5 /
        screenratio ∧
    auxGlMvpPerspective Real.tan mvp fov screenratio near far 5 =
      screenratio / Real.tan (fov / 2) := by
  have ht : Real.tan (fov / 2) ≠ 0 :=
    (Real.tan_pos_of_pos_of_lt_pi_div_two (by linarith) (by linarith)).ne.symm
  have h := perspective_entries_aux mvp fov screenratio near far hnear.ne.symm
    ht hratio.ne.symm
  refine ⟨h.1, ?_, h.2⟩
  rw [h.1, h.2]
  field_simp

/-- C7 (as the code has it) at `fov = 90°`, `screenratio = 2`, `near = 1`,
`far = 2`: `m[0] = 1` and `m[5] = 2`. -/
theorem perspective_fov_is_horizontal_witness :
    (0 : ℝ) < 1 ∧ (1 : ℝ) < 2 ∧ (0 : ℝ) < 2 ∧ 0 < Real.pi / 2 ∧
    Real.pi / 2 < Real.pi ∧
    auxGlMvpPerspective Real.tan uninit (Real.pi / 2) 2 1 2 0 =
      1 / Real.tan (Real.pi / 2 / 2) ∧
    auxGlMvpPerspective Real.tan uninit (Real.pi / 2) 2 1 2 5 =
      2 / Real.tan (Real.pi / 2 / 2) :=
  have h4 : 0 < Real.pi / 2 := by positivity
  have h5 : Real.pi / 2 < Real.pi := by linarith [Real.pi_pos]
  have h := perspective_fov_is_horizontal uninit (Real.pi / 2) 2 1 2 one_pos
    one_lt_two two_pos h4 h5
  ⟨one_pos, one_lt_two, two_pos, h4, h5, h.1, h.2.2⟩

end Perspective

/-! ### Orthographic projection -/

section Ortho

/-- The fifteen stores of `auxGlMvpOrtho`. -/
theorem auxGlMvpOrtho_unroll (mvp : Buf ℝ) (x0 y0 x1 y1 : ℝ) :
    auxGlMvpOrtho mvp x0 y0 x1 y1 =
      store (store (store (store (store (store (store (store
      (store (store (store (store (store (store (store mvp
        9 0) 8 0) 7 0) 6 0) 4 0) 3 0) 2 0) 1 0)
        0 (2 / (x1 - x0))) 5 (2 / (y1 - y0))) 10 1) 15 1)
        12 (-(x1 + x0) / (x1 - x0))) 13 (-(y1 + y0) / (y1 - y0))) 14 0 := rfl

/-- `auxGlMvpOrtho` never assigns `mvp[11]`: the entry keeps the value it had
before the call. -/
theorem auxGlMvpOrtho_entry_11 (mvp : Buf ℝ) (x0 y0 x1 y1 : ℝ) :
    auxGlMvpOrtho mvp x0 y0 x1 y1 11 = mvp 11 := by
  simp only [auxGlMvpOrtho_unroll, store_apply, Nat.reduceEqDiff, reduceIte]

/-- Every entry of the output of `auxGlMvpOrtho` other than `mvp[11]` is
written. -/
theorem auxGlMvpOrtho_writes_others (m n : Buf ℝ) (x0 y0 x1 y1 : ℝ)
    (i : Nat) (hi : i < 16) (h11 : i ≠ 11) :
    auxGlMvpOrtho m x0 y0 x1 y1 i = auxGlMvpOrtho n x0 y0 x1 y1 i := by
  simp only [auxGlMvpOrtho_unroll]
  interval_cases i <;>
    first
    | exact absurd rfl h11
    | simp only [store_apply, Nat.reduceEqDiff, reduceIte]

/-- C8: for `x0 ≠ x1` and `y0 ≠ y1`, whatever the output buffer held, the
matrix written by `auxGlMvpOrtho(x0, y0, x1, y1)` sends `(x0, y0, 0, 1)` to
clip coordinates with `x = -1`, `y = -1`, `w = 1`, and `(x1, y1, 0, 1)` to
`x = 1`, `y = 1`, `w = 1`. -/
theorem ortho_maps_corners (mvp : Buf ℝ) (x0 y0 x1 y1 : ℝ) (hx : x0 ≠ x1)
    (hy : y0 ≠ y1) :
    (applyColMajor (auxGlMvpOrtho mvp x0 y0 x1 y1) (x0, y0, 0, 1)).1 = -1 ∧
    (applyColMajor (auxGlMvpOrtho mvp x0 y0 x1 y1) (x0, y0, 0, 1)).2.1 = -1 ∧
    (applyColMajor (auxGlMvpOrtho mvp x0 y0 x1 y1) (x0, y0, 0, 1)).2.2.2 = 1 ∧
    (applyColMajor (auxGlMvpOrtho mvp x0 y0 x1 y1) (x1, y1, 0, 1)).1 = 1 ∧
    (applyColMajor (auxGlMvpOrtho mvp x0 y0 x1 y1) (x1, y1, 0, 1)).2.1 = 1 ∧
    (applyColMajor (auxGlMvpOrtho mvp x0 y0 x1 y1) (x1, y1, 0, 1)).2.2.2 = 1 := by
  have hx' : x1 - x0 ≠ 0 := sub_ne_zero.mpr hx.symm
  have hy' : y1 - y0 ≠ 0 := sub_ne_zero.mpr hy.symm
  simp only [applyColMajor, auxGlMvpOrtho_unroll, store_apply,
    Nat.reduceEqDiff, reduceIte]
  refine ⟨?_, ?_, ?_, ?_, ?_, ?_⟩
  · field_simp; ring
  · field_simp; ring
  · ring
  · field_simp; ring
  · field_simp; ring
  · ring

/-- C8 at `ortho(0, 0, 100, 100)`: the points `(0, 0)` and `(100, 100)` map
to `(-1, -1)` and `(1, 1)`, with `w = 1`. -/
theorem ortho_maps_corners_witness :
    (0 : ℝ) ≠ 100 ∧ (0 : ℝ) ≠ 100 ∧
    (applyColMajor (auxGlMvpOrtho uninit 0 0 100 100)
      ((0 : ℝ), (0 : ℝ), (0 : ℝ), (1 : ℝ))).1 = -1 ∧
    (applyColMajor (auxGlMvpOrtho uninit 0 0 100 100)
      ((0 : ℝ), (0 : ℝ), (0 : ℝ), (1 : ℝ))).2.1 = -1 ∧
    (applyColMajor (auxGlMvpOrtho uninit 0 0 100 100)
      ((0 : ℝ), (0 : ℝ), (0 : ℝ), (1 : ℝ))).2.2.2 = 1 ∧
    (applyColMajor (auxGlMvpOrtho uninit 0 0 100 100)
      ((100 : ℝ), (100 : ℝ), (0 : ℝ), (1 : ℝ))).1 = 1 ∧
    (applyColMajor (auxGlMvpOrtho uninit 0 0 100 100)
      ((100 : ℝ), (100 : ℝ), (0 : ℝ), (1 : ℝ))).2.1 = 1 ∧
    (applyColMajor (auxGlMvpOrtho uninit 0 0 100 100)
      ((100 : ℝ), (100 : ℝ), (0 : ℝ), (1 : ℝ))).2.2.2 = 1 :=
  have h : (0 : ℝ) ≠ 100 := by norm_num
  ⟨h, h, ortho_maps_corners uninit 0 0 100 100 h h⟩

/-- C9 at `auxGlMvpOrtho(mvp, 0, 0, 100, 100)`: called on a buffer holding 5
at index 11 the code leaves `mvp[11] = 5`, called on a buffer holding 0
there it leaves `mvp[11] = 0`, so the entry is not written. -/
theorem ortho_entry_11_not_written :
    auxGlMvpOrtho (store uninit 11 5) 0 0 100 100 11 = (5 : ℝ) ∧
    auxGlMvpOrtho uninit 0 0 100 100 11 = (0 : ℝ) := by
  constructor
  · rw [auxGlMvpOrtho_entry_11, store_same]
  · rw [auxGlMvpOrtho_entry_11]; rfl

end Ortho

/-! ### Identity -/

section Identity

/-- The sixteen entries `auxGlMvpIdentity` writes do not depend on what the
output buffer held. -/
theorem auxGlMvpIdentity_writes_all (m n : Buf ℝ) (i : Nat) (hi : i < 16) :
    auxGlMvpIdentity m i = auxGlMvpIdentity n i := by
  simp only [auxGlMvpIdentity]
  interval_cases i <;> simp only [store_apply, Nat.reduceEqDiff, reduceIte]

end Identity

/-! ### Normalisation -/

section Normalize

theorem sumsq_nonneg (v : Buf ℝ) : 0 ≤ v 0 * v 0 + v 1 * v 1 + v 2 * v 2 := by
  nlinarith [mul_self_nonneg (v 0), mul_self_nonneg (v 1), mul_self_nonneg (v 2)]

theorem norm3_nonneg (v : Buf ℝ) : 0 ≤ norm3 Real.sqrt v :=
  Real.sqrt_nonneg _

theorem norm3_mul_self (v : Buf ℝ) :
    norm3 Real.sqrt v * norm3 Real.sqrt v = v 0 * v 0 + v 1 * v 1 + v 2 * v 2 :=
  Real.mul_self_sqrt (sumsq_nonneg v)

/-- The norm is 0 exactly for the zero vector. -/
theorem norm3_eq_zero_iff (v : Buf ℝ) :
    norm3 Real.sqrt v = 0 ↔ v 0 = 0 ∧ v 1 = 0 ∧ v 2 = 0 := by
  constructor
  · intro h
    have hs := norm3_mul_self v
    rw [h, mul_zero] at hs
    have h0 := mul_self_nonneg (v 0)
    have h1 := mul_self_nonneg (v 1)
    have h2 := mul_self_nonneg (v 2)
    refine ⟨?_, ?_, ?_⟩ <;> apply mul_self_eq_zero.mp <;> linarith
  · rintro ⟨h0, h1, h2⟩
    simp [norm3, h0, h1, h2]

/-- A vector that `auxGlNormalize` rescales comes out with norm 1. -/
theorem norm3_normalize (v : Buf ℝ) (h : norm3 Real.sqrt v ≠ 0) :
    norm3 Real.sqrt (auxGlNormalize Real.sqrt v) = 1 := by
  obtain ⟨e0, e1, e2⟩ := auxGlNormalize_entries Real.sqrt v
  have hs := norm3_mul_self v
  rw [if_neg h] at e0 e1 e2
  have key : auxGlNormalize Real.sqrt v 0 * auxGlNormalize Real.sqrt v 0 +
      auxGlNormalize Real.sqrt v 1 * auxGlNormalize Real.sqrt v 1 +
      auxGlNormalize Real.sqrt v 2 * auxGlNormalize Real.sqrt v 2 = 1 := by
    rw [e0, e1, e2]
    field_simp
    nlinarith [hs]
  show Real.sqrt _ = 1
  rw [key, Real.sqrt_one]

/-- C10: `auxGlNormalize` agrees with the reference normalisation.  A vector
of norm 0 (the zero vector) is left as it is; any other vector has each of
its three components divided by the norm, so the result has norm 1 and is a
positive multiple of the input. -/
theorem normalize_spec (v : Buf ℝ) :
    (∀ i, auxGlNormalize Real.sqrt v i = normalizeRef Real.sqrt v i) ∧
    (norm3 Real.sqrt v = 0 → auxGlNormalize Real.sqrt v = v) ∧
    (v 0 = 0 ∧ v 1 = 0 ∧ v 2 = 0 → auxGlNormalize Real.sqrt v = v) ∧
    (norm3 Real.sqrt v ≠ 0 →
      (∀ i, i < 3 →
        auxGlNormalize Real.sqrt v i = v i / norm3 Real.sqrt v) ∧
      norm3 Real.sqrt (auxGlNormalize Real.sqrt v) = 1 ∧
      ∃ k : ℝ, 0 < k ∧
        ∀ i, i < 3 → auxGlNormalize Real.sqrt v i = k * v i) := by
  obtain ⟨e0, e1, e2⟩ := auxGlNormalize_entries Real.sqrt v
  have hzero : norm3 Real.sqrt v = 0 → auxGlNormalize Real.sqrt v = v := by
    intro h
    unfold auxGlNormalize
    exact if_pos h
  have hdiv : norm3 Real.sqrt v ≠ 0 → ∀ i, i < 3 →
      auxGlNormalize Real.sqrt v i = v i / norm3 Real.sqrt v := by
    intro h i hi
    rw [if_neg h] at e0 e1 e2
    interval_cases i
    · rw [e0]; ring
    · rw [e1]; ring
    · rw [e2]; ring
  refine ⟨?_, hzero, fun h => hzero ((norm3_eq_zero_iff v).mpr h), ?_⟩
  · intro i
    unfold normalizeRef
    by_cases h : norm3 Real.sqrt v = 0
    · rw [if_pos h, hzero h]
    · rw [if_neg h]
      by_cases hi : i < 3
      · rw [if_pos hi, hdiv h i hi]
      · rw [if_neg hi, auxGlNormalize_rest Real.sqrt v i (by omega)]
  · intro h
    refine ⟨hdiv h, norm3_normalize v h, 1 / norm3 Real.sqrt v, ?_, ?_⟩
    · exact one_div_pos.mpr (lt_of_le_of_ne (norm3_nonneg v) (Ne.symm h))
    · intro i hi
      rw [hdiv h i hi]; ring

/-- C10 at `v = (3, 4, 0)`: the norm is 5, and `auxGlNormalize` leaves
`(3/5, 4/5, 0)`, of norm 1. -/
theorem normalize_spec_witness :
    norm3 Real.sqrt (vec3 3 4 0) ≠ 0 ∧
    auxGlNormalize Real.sqrt (vec3 3 4 0) 0 = 3 / 5 ∧
    auxGlNormalize Real.sqrt (vec3 3 4 0) 1 = 4 / 5 ∧
    auxGlNormalize Real.sqrt (vec3 3 4 0) 2 = 0 ∧
    norm3 Real.sqrt (auxGlNormalize Real.sqrt (vec3 3 4 0)) = 1 := by
  have hn : norm3 Real.sqrt (vec3 3 4 0) = 5 := by
    simp only [norm3, vec3_zero, vec3_one, vec3_two]
    rw [show (3 : ℝ) * 3 + 4 * 4 + 0 * 0 = 5 ^ 2 by norm_num]
    exact Real.sqrt_sq (by norm_num)
  have h5 : norm3 Real.sqrt (vec3 3 4 0) ≠ 0 := by
    rw [hn]; norm_num
  have h := (normalize_spec (vec3 3 4 0)).2.2.2 h5
  have h0 := h.1 0 (by norm_num)
  have h1 := h.1 1 (by norm_num)
  have h2 := h.1 2 (by norm_num)
  rw [hn, vec3_zero] at h0
  rw [hn, vec3_one] at h1
  rw [hn, vec3_two, zero_div] at h2
  exact ⟨h5, h0, h1, h2, h.2.1⟩

end Normalize

/-! ### Look-at -/

section LookAt

/-- The normalised forward vector is orthogonal to `side`. -/
theorem lookAt_side_dot (eye at_ up : Buf ℝ) :
    lookAtSide Real.sqrt eye at_ up 0 * lookAtForw Real.sqrt eye at_ 0 +
    lookAtSide Real.sqrt eye at_ up 1 * lookAtForw Real.sqrt eye at_ 1 +
    lookAtSide Real.sqrt eye at_ up 2 * lookAtForw Real.sqrt eye at_ 2 = 0 := by
  obtain ⟨s0, s1, s2⟩ := auxGlNormalize_entries Real.sqrt
    (auxGlCross uninit up (lookAtForw Real.sqrt eye at_))
  obtain ⟨c0, c1, c2⟩ := auxGlCross_entries uninit up
    (lookAtForw Real.sqrt eye at_)
  unfold lookAtSide
  rw [s0, s1, s2, c0, c1, c2]
  ring

/-- The forward vector is orthogonal to `nup`. -/
theorem lookAt_nup_dot (eye at_ up : Buf ℝ) :
    lookAtNup Real.sqrt eye at_ up 0 * lookAtForw Real.sqrt eye at_ 0 +
    lookAtNup Real.sqrt eye at_ up 1 * lookAtForw Real.sqrt eye at_ 1 +
    lookAtNup Real.sqrt eye at_ up 2 * lookAtForw Real.sqrt eye at_ 2 = 0 := by
  obtain ⟨c0, c1, c2⟩ := auxGlCross_entries uninit
    (lookAtForw Real.sqrt eye at_) (lookAtSide Real.sqrt eye at_ up)
  unfold lookAtNup
  rw [c0, c1, c2]
  ring

/-- The distance from `eye` to `at`, as `auxGlNormalize` computes it for
`forw`. -/
theorem norm3_diff (eye at_ : Buf ℝ) :
    norm3 Real.sqrt (vec3 (at_ 0 - eye 0) (at_ 1 - eye 1) (at_ 2 - eye 2)) =
      Real.sqrt ((at_ 0 - eye 0) ^ 2 + (at_ 1 - eye 1) ^ 2 +
        (at_ 2 - eye 2) ^ 2) := by
  obtain ⟨v0, v1, v2⟩ := vec3_entries (at_ 0 - eye 0) (at_ 1 - eye 1)
    (at_ 2 - eye 2)
  unfold norm3
  rw [v0, v1, v2]
  congr 1
  ring

/-- For `eye ≠ at`, `at - eye` is the distance times the forward vector. -/
theorem lookAt_forw_scaled (eye at_ : Buf ℝ)
    (h : (eye 0, eye 1, eye 2) ≠ (at_ 0, at_ 1, at_ 2)) :
    at_ 0 - eye 0 = norm3 Real.sqrt (vec3 (at_ 0 - eye 0) (at_ 1 - eye 1)
        (at_ 2 - eye 2)) * lookAtForw Real.sqrt eye at_ 0 ∧
    at_ 1 - eye 1 = norm3 Real.sqrt (vec3 (at_ 0 - eye 0) (at_ 1 - eye 1)
        (at_ 2 - eye 2)) * lookAtForw Real.sqrt eye at_ 1 ∧
    at_ 2 - eye 2 = norm3 Real.sqrt (vec3 (at_ 0 - eye 0) (at_ 1 - eye 1)
        (at_ 2 - eye 2)) * lookAtForw Real.sqrt eye at_ 2 ∧
    lookAtForw Real.sqrt eye at_ 0 * lookAtForw Real.sqrt eye at_ 0 +
      lookAtForw Real.sqrt eye at_ 1 * lookAtForw Real.sqrt eye at_ 1 +
      lookAtForw Real.sqrt eye at_ 2 * lookAtForw Real.sqrt eye at_ 2 = 1 := by
  obtain ⟨v0, v1, v2⟩ := vec3_entries (at_ 0 - eye 0) (at_ 1 - eye 1)
    (at_ 2 - eye 2)
  have hn : norm3 Real.sqrt (vec3 (at_ 0 - eye 0) (at_ 1 - eye 1)
      (at_ 2 - eye 2)) ≠ 0 := by
    intro h0
    obtain ⟨z0, z1, z2⟩ := (norm3_eq_zero_iff _).mp h0
    rw [v0] at z0; rw [v1] at z1; rw [v2] at z2
    apply h
    rw [Prod.mk.injEq, Prod.mk.injEq]
    exact ⟨by linarith, by linarith, by linarith⟩
  obtain ⟨e0, e1, e2⟩ := auxGlNormalize_entries Real.sqrt
    (vec3 (at_ 0 - eye 0) (at_ 1 - eye 1) (at_ 2 - eye 2))
  rw [if_neg hn, v0] at e0
  rw [if_neg hn, v1] at e1
  rw [if_neg hn, v2] at e2
  have hs := norm3_mul_self (vec3 (at_ 0 - eye 0) (at_ 1 - eye 1)
    (at_ 2 - eye 2))
  rw [v0, v1, v2] at hs
  unfold lookAtForw
  rw [e0, e1, e2]
  refine ⟨?_, ?_, ?_, ?_⟩
  · field_simp
  · field_simp
  · field_simp
  · field_simp
    nlinarith [hs]

/-- C5: for `eye ≠ target` and any `up`, the matrix written by
`auxGlMvpLookAt` sends the homogeneous point `(target, 1)` to
`(0, 0, -d, 1)`, with `d` the Euclidean distance between `eye` and
`target`. -/
theorem lookAt_target (mat eye at_ up : Buf ℝ)
    (h : (eye 0, eye 1, eye 2) ≠ (at_ 0, at_ 1, at_ 2)) :
    applyColMajor (auxGlMvpLookAt Real.sqrt mat eye at_ up)
        (at_ 0, at_ 1, at_ 2, 1) =
      (0, 0, -Real.sqrt ((at_ 0 - eye 0) ^ 2 + (at_ 1 - eye 1) ^ 2 +
        (at_ 2 - eye 2) ^ 2), 1) := by
  obtain ⟨f0, f1, f2, f1sq⟩ := lookAt_forw_scaled eye at_ h
  have hs := lookAt_side_dot eye at_ up
  have hu := lookAt_nup_dot eye at_ up
  rw [auxGlMvpLookAt_eq, applyColMajor_multiply, applyColMajor_lookAtM1,
    applyColMajor_lookAtM0, ← norm3_diff]
  simp only [mul_one, Prod.mk.injEq, and_true]
  generalize norm3 Real.sqrt (vec3 (at_ 0 - eye 0) (at_ 1 - eye 1)
    (at_ 2 - eye 2)) = d at f0 f1 f2 ⊢
  rw [f0, f1, f2]
  refine ⟨?_, ?_, ?_⟩
  · linear_combination d * hs
  · linear_combination d * hu
  · linear_combination (-d) * f1sq

/-- C5 at `eye = (0,0,5)`, `target = (0,0,0)`, `up = (0,1,0)`: the target is
sent to `(0, 0, -5, 1)`. -/
theorem lookAt_target_witness :
    ((0 : ℝ), (0 : ℝ), (5 : ℝ)) ≠ ((0 : ℝ), (0 : ℝ), (0 : ℝ)) ∧
    applyColMajor
      (auxGlMvpLookAt Real.sqrt uninit (vec3 0 0 5) (vec3 0 0 0) (vec3 0 1 0))
      ((0 : ℝ), (0 : ℝ), (0 : ℝ), (1 : ℝ)) = (0, 0, -5, 1) := by
  have hne : ((0 : ℝ), (0 : ℝ), (5 : ℝ)) ≠ ((0 : ℝ), (0 : ℝ), (0 : ℝ)) := by
    norm_num
  have h := lookAt_target uninit (vec3 0 0 5) (vec3 0 0 0) (vec3 0 1 0)
    (by simp only [vec3_zero, vec3_one, vec3_two]; exact hne)
  have hd : Real.sqrt (((0 : ℝ) - 0) ^ 2 + ((0 : ℝ) - 0) ^ 2 +
      ((0 : ℝ) - 5) ^ 2) = 5 := by
    rw [show ((0 : ℝ) - 0) ^ 2 + ((0 : ℝ) - 0) ^ 2 + ((0 : ℝ) - 5) ^ 2 =
      5 ^ 2 by norm_num]
    exact Real.sqrt_sq (by norm_num)
  simp only [vec3_zero, vec3_one, vec3_two] at h
  rw [hd] at h
  exact ⟨hne, h⟩

/-- The sixteen entries `auxGlMvpLookAt` writes do not depend on what the
output buffer held. -/
theorem auxGlMvpLookAt_writes_all (m n eye at_ up : Buf ℝ) (i : Nat)
    (hi : i < 16) :
    auxGlMvpLookAt Real.sqrt m eye at_ up i =
      auxGlMvpLookAt Real.sqrt n eye at_ up i := by
  rw [auxGlMvpLookAt_eq, auxGlMvpLookAt_eq]
  exact auxGlMatrixMultiply_congr m n (fun _ _ => rfl) (fun _ _ => rfl) i hi

end LookAt

/-! ### Camera -/

section Camera

/-- The sixteen entries `auxGlMvpCamera` writes do not depend on what the
output buffer held. -/
theorem auxGlMvpCamera_writes_all (m n : Buf ℝ) (fov screenratio near far : ℝ)
    (eye at_ up : Buf ℝ) (i : Nat) (hi : i < 16) :
    auxGlMvpCamera Real.tan Real.sqrt m fov screenratio near far eye at_ up i =
      auxGlMvpCamera Real.tan Real.sqrt n fov screenratio near far eye at_ up
        i :=
  auxGlMatrixMultiply_congr m n (fun _ _ => rfl) (fun _ _ => rfl) i hi

/-- C4: applying the matrix written by `auxGlMvpCamera` to a homogeneous
point `p` is applying the matrix of `auxGlMvpLookAt` to `p` and then the
matrix of `auxGlMvpPerspective` to the result: the view comes first, the
projection second. -/
theorem camera_is_perspective_after_lookAt (mvp persp look : Buf ℝ)
    (fov screenratio near far : ℝ) (eye at_ up : Buf ℝ) (p : ℝ × ℝ × ℝ × ℝ) :
    applyColMajor
        (auxGlMvpCamera Real.tan Real.sqrt mvp fov screenratio near far eye
          at_ up) p =
      applyColMajor (auxGlMvpPerspective Real.tan persp fov screenratio near far)
        (applyColMajor (auxGlMvpLookAt Real.sqrt look eye at_ up) p) := by
  have hc : auxGlMvpCamera Real.tan Real.sqrt mvp fov screenratio near far eye
      at_ up =
      auxGlMatrixMultiply mvp (auxGlMvpLookAt Real.sqrt uninit eye at_ up)
        (auxGlMvpPerspective Real.tan uninit fov screenratio near far) := rfl
  rw [hc, applyColMajor_multiply,
    applyColMajor_congr
      (auxGlMvpPerspective_writes_all Real.tan uninit persp fov screenratio
        near far),
    applyColMajor_congr (auxGlMvpLookAt_writes_all uninit look eye at_ up)]

end Camera

/-! ### Cross product -/

section Cross

/-- C11: for all 3-vectors `a` and `b`, the vector written by
`auxGlCross(dst, a, b)` is the componentwise negation of the vector written
by `auxGlCross(dst, b, a)`, and `auxGlCross(dst, a, a)` writes the zero
vector. -/
theorem cross_antisymm (dst1 dst2 dst3 a b : Buf ℝ) (i : Fin 3) :
    auxGlCross dst1 a b i.val = -auxGlCross dst2 b a i.val ∧
    auxGlCross dst3 a a i.val = 0 := by
  obtain ⟨p0, p1, p2⟩ := auxGlCross_entries dst1 a b
  obtain ⟨q0, q1, q2⟩ := auxGlCross_entries dst2 b a
  obtain ⟨r0, r1, r2⟩ := auxGlCross_entries dst3 a a
  fin_cases i
  · exact ⟨by rw [p0, q0]; ring, by rw [r0]; ring⟩
  · exact ⟨by rw [p1, q1]; ring, by rw [r1]; ring⟩
  · exact ⟨by rw [p2, q2]; ring, by rw [r2]; ring⟩

end Cross

/-! ### Matrix product, as the loop has it -/

section MultiplyLoop

/-- C20: for all 4x4 arrays `a` and `b`, `auxGlMatrixMultiply(out, a, b)`
writes `out[y*4+x] = sum over k in 0..3 of a[y*4+k] * b[k*4+x]` for every
`x`, `y` in 0..3: read row-major this is entry `(y, x)` of `a × b`, read
column-major it is entry `(x, y)` of `b × a`. -/
theorem multiply_rowMajor (mat a b : Buf ℝ) (x y : Fin 4) :
    auxGlMatrixMultiply mat a b (y.val * 4 + x.val) =
      ∑ k in Finset.range 4, a (y.val * 4 + k) * b (k * 4 + x.val) ∧
    auxGlMatrixMultiply mat a b (y.val * 4 + x.val) =
      rowMajorProd a b y.val x.val ∧
    auxGlMatrixMultiply mat a b (y.val * 4 + x.val) =
      colMajorProd b a x.val y.val := by
  fin_cases x <;> fin_cases y <;>
    simp only [auxGlMatrixMultiply_unroll, colMajorProd, rowMajorProd,
      Finset.sum_range_succ, Finset.sum_range_zero, store_apply, Fin.zero_eta,
      Fin.mk_one, Fin.reduceFinMk, Fin.val_zero, Fin.val_one, Fin.val_two,
      Fin.isValue, Fin.coe_ofNat_eq_mod, Nat.reduceMod, Nat.reduceMul,
      Nat.reduceAdd, Nat.reduceEqDiff, reduceIte, zero_add, add_zero,
      zero_mul] <;>
    exact ⟨trivial, trivial, by ring⟩

end MultiplyLoop

/-! ### Look-at: the matrix and its vectors -/

section LookAtMatrix

/-- The sixteen entries `auxGlMvpLookAt` writes, from its three vectors. -/
theorem auxGlMvpLookAt_entries (mat eye at_ up : Buf ℝ) :
    (auxGlMvpLookAt Real.sqrt mat eye at_ up 0 =
        lookAtSide Real.sqrt eye at_ up 0 ∧
      auxGlMvpLookAt Real.sqrt mat eye at_ up 1 =
        lookAtNup Real.sqrt eye at_ up 0 ∧
      auxGlMvpLookAt Real.sqrt mat eye at_ up 2 =
        -lookAtForw Real.sqrt eye at_ 0 ∧
      auxGlMvpLookAt Real.sqrt mat eye at_ up 3 = 0) ∧
    (auxGlMvpLookAt Real.sqrt mat eye at_ up 4 =
        lookAtSide Real.sqrt eye at_ up 1 ∧
      auxGlMvpLookAt Real.sqrt mat eye at_ up 5 =
        lookAtNup Real.sqrt eye at_ up 1 ∧
      auxGlMvpLookAt Real.sqrt mat eye at_ up 6 =
        -lookAtForw Real.sqrt eye at_ 1 ∧
      auxGlMvpLookAt Real.sqrt mat eye at_ up 7 = 0) ∧
    (auxGlMvpLookAt Real.sqrt mat eye at_ up 8 =
        lookAtSide Real.sqrt eye at_ up 2 ∧
      auxGlMvpLookAt Real.sqrt mat eye at_ up 9 =
        lookAtNup Real.sqrt eye at_ up 2 ∧
      auxGlMvpLookAt Real.sqrt mat eye at_ up 10 =
        -lookAtForw Real.sqrt eye at_ 2 ∧
      auxGlMvpLookAt Real.sqrt mat eye at_ up 11 = 0) ∧
    (auxGlMvpLookAt Real.sqrt mat eye at_ up 12 =
        -dot3 (lookAtSide Real.sqrt eye at_ up) eye ∧
      auxGlMvpLookAt Real.sqrt mat eye at_ up 13 =
        -dot3 (lookAtNup Real.sqrt eye at_ up) eye ∧
      auxGlMvpLookAt Real.sqrt mat eye at_ up 14 =
        dot3 (lookAtForw Real.sqrt eye at_) eye ∧
      auxGlMvpLookAt Real.sqrt mat eye at_ up 15 = 1) := by
  simp only [auxGlMvpLookAt_eq, auxGlMatrixMultiply_unroll, lookAtM0,
    lookAtM1, auxGlMvpIdentity, dot3, store_apply, Nat.reduceEqDiff,
    reduceIte]
  refine ⟨⟨?_, ?_, ?_, ?_⟩, ⟨?_, ?_, ?_, ?_⟩, ⟨?_, ?_, ?_, ?_⟩,
    ⟨?_, ?_, ?_, ?_⟩⟩ <;> ring

/-- Read column-major, `auxGlMatrixMultiply(out, a, b)` holds `b × a`. -/
theorem auxGlMatrixMultiply_colMajor (mat a b : Buf ℝ) (r c : Fin 4) :
    auxGlMatrixMultiply mat a b (c.val * 4 + r.val) =
      colMajorProd b a r.val c.val := by
  fin_cases r <;> fin_cases c <;>
    simp only [auxGlMatrixMultiply_unroll, colMajorProd, Finset.sum_range_succ,
      Finset.sum_range_zero, store_apply, Fin.zero_eta, Fin.mk_one,
      Fin.reduceFinMk, Fin.val_zero, Fin.val_one, Fin.val_two, Fin.isValue,
      Fin.coe_ofNat_eq_mod, Nat.reduceMod, Nat.reduceMul, Nat.reduceAdd,
      Nat.reduceEqDiff, reduceIte, zero_add, add_zero, zero_mul] <;>
    ring

/-- The sixteen entries of the local `m0` of `auxGlMvpLookAt`: rows
`(side, 0)`, `(nup, 0)`, `(-forw, 0)`, `(0, 0, 0, 1)`. -/
theorem lookAtM0_entries (side nup forw : Buf ℝ) :
    (∀ c : Fin 3,
      lookAtM0 side nup forw (c.val * 4 + 0) = side c.val ∧
      lookAtM0 side nup forw (c.val * 4 + 1) = nup c.val ∧
      lookAtM0 side nup forw (c.val * 4 + 2) = -forw c.val ∧
      lookAtM0 side nup forw (c.val * 4 + 3) = 0) ∧
    lookAtM0 side nup forw 12 = 0 ∧ lookAtM0 side nup forw 13 = 0 ∧
    lookAtM0 side nup forw 14 = 0 ∧ lookAtM0 side nup forw 15 = 1 := by
  refine ⟨?_, ?_, ?_, ?_, ?_⟩
  · intro c
    fin_cases c <;>
      simp only [lookAtM0, auxGlMvpIdentity, store_apply, Fin.zero_eta,
        Fin.mk_one, Fin.reduceFinMk, Fin.val_zero, Fin.val_one, Fin.val_two,
        Fin.isValue, Nat.reduceMul, Nat.reduceAdd, Nat.reduceEqDiff,
        reduceIte, and_self]
  all_goals
    simp only [lookAtM0, auxGlMvpIdentity, store_apply, Nat.reduceEqDiff,
      reduceIte]

/-- On the three components, `auxGlNormalize` is the reference
normalisation. -/
theorem auxGlNormalize_eq_ref (v : Buf ℝ) (i : Fin 3) :
    auxGlNormalize Real.sqrt v i.val = normalizeRef Real.sqrt v i.val := by
  obtain ⟨e0, e1, e2⟩ := auxGlNormalize_entries Real.sqrt v
  unfold normalizeRef
  by_cases h : norm3 Real.sqrt v = 0
  · rw [if_pos h] at e0 e1 e2
    rw [if_pos h]
    fin_cases i
    · rw [e0]; exact one_mul _
    · rw [e1]; exact one_mul _
    · rw [e2]; exact one_mul _
  · rw [if_neg h] at e0 e1 e2
    rw [if_neg h]
    fin_cases i
    · rw [e0, if_pos (by norm_num)]; ring
    · rw [e1, if_pos (by norm_num)]; ring
    · rw [e2, if_pos (by norm_num)]; ring

/-- The reference normalisation reads only the three components. -/
theorem normalizeRef_congr (v w : Buf ℝ) (h0 : v 0 = w 0) (h1 : v 1 = w 1)
    (h2 : v 2 = w 2) (i : Fin 3) :
    normalizeRef Real.sqrt v i.val = normalizeRef Real.sqrt w i.val := by
  unfold normalizeRef norm3
  rw [h0, h1, h2]
  fin_cases i
  · show (if _ then v 0 else _) = (if _ then w 0 else _)
    rw [h0]
  · show (if _ then v 1 else _) = (if _ then w 1 else _)
    rw [h1]
  · show (if _ then v 2 else _) = (if _ then w 2 else _)
    rw [h2]

theorem sub3_apply (a b : Buf ℝ) (i : Nat) : sub3 a b i = a i - b i := rfl

/-- The three components of the reference cross product. -/
theorem crossRef_entries (a b : Buf ℝ) :
    crossRef a b 0 = a 1 * b 2 - a 2 * b 1 ∧
    crossRef a b 1 = a 2 * b 0 - a 0 * b 2 ∧
    crossRef a b 2 = a 0 * b 1 - a 1 * b 0 := by
  unfold crossRef
  simp only [Nat.reduceEqDiff, reduceIte, and_self]

/-- The locals `forw`, `side` and `nup` of `auxGlMvpLookAt` are the vectors
`forward = normalize(target - eye)`, `side = normalize(up × forward)` and
`trueUp = forward × side`. -/
theorem lookAt_locals_eq_ref (eye at_ up : Buf ℝ) :
    (lookAtForw Real.sqrt eye at_ 0 = refForward Real.sqrt eye at_ 0 ∧
      lookAtForw Real.sqrt eye at_ 1 = refForward Real.sqrt eye at_ 1 ∧
      lookAtForw Real.sqrt eye at_ 2 = refForward Real.sqrt eye at_ 2) ∧
    (lookAtSide Real.sqrt eye at_ up 0 = refSide Real.sqrt eye at_ up 0 ∧
      lookAtSide Real.sqrt eye at_ up 1 = refSide Real.sqrt eye at_ up 1 ∧
      lookAtSide Real.sqrt eye at_ up 2 = refSide Real.sqrt eye at_ up 2) ∧
    (lookAtNup Real.sqrt eye at_ up 0 = refTrueUp Real.sqrt eye at_ up 0 ∧
      lookAtNup Real.sqrt eye at_ up 1 = refTrueUp Real.sqrt eye at_ up 1 ∧
      lookAtNup Real.sqrt eye at_ up 2 = refTrueUp Real.sqrt eye at_ up 2) := by
  have hF : ∀ i : Fin 3, lookAtForw Real.sqrt eye at_ i.val =
      refForward Real.sqrt eye at_ i.val := by
    intro i
    unfold lookAtForw refForward
    rw [auxGlNormalize_eq_ref]
    exact normalizeRef_congr
      (vec3 (at_ 0 - eye 0) (at_ 1 - eye 1) (at_ 2 - eye 2)) (sub3 at_ eye)
      (by rw [vec3_zero, sub3_apply]) (by rw [vec3_one, sub3_apply])
      (by rw [vec3_two, sub3_apply]) i
  have hF0 : lookAtForw Real.sqrt eye at_ 0 = refForward Real.sqrt eye at_ 0 :=
    hF ⟨0, by norm_num⟩
  have hF1 : lookAtForw Real.sqrt eye at_ 1 = refForward Real.sqrt eye at_ 1 :=
    hF ⟨1, by norm_num⟩
  have hF2 : lookAtForw Real.sqrt eye at_ 2 = refForward Real.sqrt eye at_ 2 :=
    hF ⟨2, by norm_num⟩
  obtain ⟨c0, c1, c2⟩ := auxGlCross_entries uninit up
    (lookAtForw Real.sqrt eye at_)
  obtain ⟨r0, r1, r2⟩ := crossRef_entries up (refForward Real.sqrt eye at_)
  have hS : ∀ i : Fin 3, lookAtSide Real.sqrt eye at_ up i.val =
      refSide Real.sqrt eye at_ up i.val := by
    intro i
    unfold lookAtSide refSide
    rw [auxGlNormalize_eq_ref]
    exact normalizeRef_congr
      (auxGlCross uninit up (lookAtForw Real.sqrt eye at_))
      (crossRef up (refForward Real.sqrt eye at_))
      (by rw [c0, r0, hF1, hF2]) (by rw [c1, r1, hF0, hF2])
      (by rw [c2, r2, hF0, hF1]) i
  have hS0 : lookAtSide Real.sqrt eye at_ up 0 =
      refSide Real.sqrt eye at_ up 0 := hS ⟨0, by norm_num⟩
  have hS1 : lookAtSide Real.sqrt eye at_ up 1 =
      refSide Real.sqrt eye at_ up 1 := hS ⟨1, by norm_num⟩
  have hS2 : lookAtSide Real.sqrt eye at_ up 2 =
      refSide Real.sqrt eye at_ up 2 := hS ⟨2, by norm_num⟩
  obtain ⟨u0, u1, u2⟩ := auxGlCross_entries uninit
    (lookAtForw Real.sqrt eye at_) (lookAtSide Real.sqrt eye at_ up)
  obtain ⟨t0, t1, t2⟩ := crossRef_entries (refForward Real.sqrt eye at_)
    (refSide Real.sqrt eye at_ up)
  refine ⟨⟨hF0, hF1, hF2⟩, ⟨hS0, hS1, hS2⟩, ?_, ?_, ?_⟩
  · unfold lookAtNup refTrueUp
    rw [u0, t0, hF1, hF2, hS1, hS2]
  · unfold lookAtNup refTrueUp
    rw [u1, t1, hF0, hF2, hS0, hS2]
  · unfold lookAtNup refTrueUp
    rw [u2, t2, hF0, hF1, hS0, hS1]

/-- The sixteen entries of the matrix `R` of the specification agree with
the local `m0` of `auxGlMvpLookAt`, and those of the translation by `-eye`
with the local `m1`. -/
theorem lookAt_matrices_eq_ref (side nup forw eye : Buf ℝ) (i : Nat)
    (hi : i < 16) :
    lookAtM0 side nup forw i = rotationRef side nup forw i ∧
    lookAtM1 eye i = translationRef (neg3 eye) i := by
  interval_cases i <;>
    simp only [lookAtM0, lookAtM1, auxGlMvpIdentity, rotationRef,
      translationRef, neg3, store_apply, Nat.reduceEqDiff, Nat.reduceDiv,
      Nat.reduceMod, Nat.reduceLT, Nat.lt_irrefl, reduceIte, or_false,
      or_true, false_or, true_or, or_self, and_self,
      OfNat.zero_ne_ofNat, OfNat.ofNat_ne_zero, Nat.zero_div, Nat.zero_mod,
      Nat.ofNat_pos]

/-- C16: with `forward = normalize(target - eye)`,
`side = normalize(up × forward)` and `trueUp = forward × side`, the
column-major matrix written by `auxGlMvpLookAt` is the product `R × T`,
where `R` has rows `(side, 0)`, `(trueUp, 0)`, `(-forward, 0)`,
`(0, 0, 0, 1)` and `T` is the translation by `-eye`: for `c` in 0..2,
`m[c*4+0] = side[c]`, `m[c*4+1] = trueUp[c]`, `m[c*4+2] = -forward[c]`,
`m[c*4+3] = 0`, and `m[12] = -side·eye`, `m[13] = -trueUp·eye`,
`m[14] = forward·eye`, `m[15] = 1`.  The three vectors are those of the
specification, and the locals `forw`, `side`, `nup` of the code are equal to
them. -/
theorem lookAt_rotation_times_translation (mat eye at_ up : Buf ℝ) :
    (∀ r c : Fin 4,
      auxGlMvpLookAt Real.sqrt mat eye at_ up (c.val * 4 + r.val) =
        colMajorProd
          (rotationRef (refSide Real.sqrt eye at_ up)
            (refTrueUp Real.sqrt eye at_ up) (refForward Real.sqrt eye at_))
          (translationRef (neg3 eye)) r.val c.val) ∧
    (∀ c : Fin 3,
      auxGlMvpLookAt Real.sqrt mat eye at_ up (c.val * 4 + 0) =
        refSide Real.sqrt eye at_ up c.val ∧
      auxGlMvpLookAt Real.sqrt mat eye at_ up (c.val * 4 + 1) =
        refTrueUp Real.sqrt eye at_ up c.val ∧
      auxGlMvpLookAt Real.sqrt mat eye at_ up (c.val * 4 + 2) =
        -refForward Real.sqrt eye at_ c.val ∧
      auxGlMvpLookAt Real.sqrt mat eye at_ up (c.val * 4 + 3) = 0) ∧
    auxGlMvpLookAt Real.sqrt mat eye at_ up 12 =
      -dot3 (refSide Real.sqrt eye at_ up) eye ∧
    auxGlMvpLookAt Real.sqrt mat eye at_ up 13 =
      -dot3 (refTrueUp Real.sqrt eye at_ up) eye ∧
    auxGlMvpLookAt Real.sqrt mat eye at_ up 14 =
      dot3 (refForward Real.sqrt eye at_) eye ∧
    auxGlMvpLookAt Real.sqrt mat eye at_ up 15 = 1 ∧
    (∀ c : Fin 3,
      lookAtForw Real.sqrt eye at_ c.val = refForward Real.sqrt eye at_ c.val ∧
      lookAtSide Real.sqrt eye at_ up c.val =
        refSide Real.sqrt eye at_ up c.val ∧
      lookAtNup Real.sqrt eye at_ up c.val =
        refTrueUp Real.sqrt eye at_ up c.val) := by
  obtain ⟨⟨hF0, hF1, hF2⟩, ⟨hS0, hS1, hS2⟩, ⟨hU0, hU1, hU2⟩⟩ :=
    lookAt_locals_eq_ref eye at_ up
  obtain ⟨⟨m0, m1, m2, m3⟩, ⟨m4, m5, m6, m7⟩, ⟨m8, m9, m10, m11⟩,
    ⟨m12, m13, m14, m15⟩⟩ := auxGlMvpLookAt_entries mat eye at_ up
  unfold dot3 at m12 m13 m14
  rw [hS0] at m0; rw [hU0] at m1; rw [hF0] at m2
  rw [hS1] at m4; rw [hU1] at m5; rw [hF1] at m6
  rw [hS2] at m8; rw [hU2] at m9; rw [hF2] at m10
  rw [hS0, hS1, hS2] at m12
  rw [hU0, hU1, hU2] at m13
  rw [hF0, hF1, hF2] at m14
  refine ⟨?_, ?_, ?_, ?_, ?_, m15, ?_⟩
  · intro r c
    fin_cases r <;> fin_cases c <;>
      simp only [colMajorProd, Finset.sum_range_succ, Finset.sum_range_zero,
        rotationRef, translationRef, neg3, Fin.zero_eta, Fin.mk_one,
        Fin.reduceFinMk, Fin.val_zero, Fin.val_one, Fin.val_two, Fin.isValue,
        Fin.coe_ofNat_eq_mod, Nat.reduceMod, Nat.reduceMul, Nat.reduceAdd,
        Nat.reduceDiv, Nat.reduceLT, Nat.reduceEqDiff, Nat.lt_irrefl,
        Nat.zero_div, Nat.zero_mod, Nat.ofNat_pos, OfNat.zero_ne_ofNat,
        OfNat.ofNat_ne_zero, reduceIte, or_false, or_true, false_or, true_or,
        or_self, zero_add, add_zero, zero_mul, m0, m1, m2, m3, m4, m5, m6,
        m7, m8, m9, m10, m11, m12, m13, m14, m15] <;>
      ring
  · intro c
    fin_cases c
    · exact ⟨m0, m1, m2, m3⟩
    · exact ⟨m4, m5, m6, m7⟩
    · exact ⟨m8, m9, m10, m11⟩
  · rw [m12]; rfl
  · rw [m13]; rfl
  · rw [m14]; rfl
  · intro c
    fin_cases c
    · exact ⟨hF0, hS0, hU0⟩
    · exact ⟨hF1, hS1, hU1⟩
    · exact ⟨hF2, hS2, hU2⟩

/-- A 3-vector whose squares sum to 1 has norm 1. -/
theorem norm3_eq_one_of_sumsq (v : Buf ℝ)
    (h : v 0 * v 0 + v 1 * v 1 + v 2 * v 2 = 1) : norm3 Real.sqrt v = 1 := by
  unfold norm3
  rw [h, Real.sqrt_one]

/-- For `eye ≠ at` and `up` not parallel to `at - eye`, the three vectors of
`auxGlMvpLookAt` have squares summing to 1 and pairwise dot product 0. -/
theorem lookAt_orthonormal_aux (eye at_ up : Buf ℝ)
    (h : (eye 0, eye 1, eye 2) ≠ (at_ 0, at_ 1, at_ 2))
    (hpar : ¬ parallel3 up
      (vec3 (at_ 0 - eye 0) (at_ 1 - eye 1) (at_ 2 - eye 2))) :
    dot3 (lookAtForw Real.sqrt eye at_) (lookAtForw Real.sqrt eye at_) = 1 ∧
    dot3 (lookAtSide Real.sqrt eye at_ up) (lookAtSide Real.sqrt eye at_ up)
      = 1 ∧
    dot3 (lookAtNup Real.sqrt eye at_ up) (lookAtNup Real.sqrt eye at_ up)
      = 1 ∧
    dot3 (lookAtForw Real.sqrt eye at_) (lookAtSide Real.sqrt eye at_ up)
      = 0 ∧
    dot3 (lookAtForw Real.sqrt eye at_) (lookAtNup Real.sqrt eye at_ up)
      = 0 ∧
    dot3 (lookAtSide Real.sqrt eye at_ up) (lookAtNup Real.sqrt eye at_ up)
      = 0 := by
  obtain ⟨f0, f1, f2, hF⟩ := lookAt_forw_scaled eye at_ h
  have hsf := lookAt_side_dot eye at_ up
  have huf := lookAt_nup_dot eye at_ up
  obtain ⟨c0, c1, c2⟩ := auxGlCross_entries uninit up
    (lookAtForw Real.sqrt eye at_)
  obtain ⟨u0, u1, u2⟩ := auxGlCross_entries uninit
    (lookAtForw Real.sqrt eye at_) (lookAtSide Real.sqrt eye at_ up)
  have hc : norm3 Real.sqrt
      (auxGlCross uninit up (lookAtForw Real.sqrt eye at_)) ≠ 0 := by
    intro h0
    obtain ⟨z0, z1, z2⟩ := (norm3_eq_zero_iff _).mp h0
    rw [c0] at z0; rw [c1] at z1; rw [c2] at z2
    apply hpar
    unfold parallel3
    rw [vec3_zero, vec3_one, vec3_two]
    generalize norm3 Real.sqrt (vec3 (at_ 0 - eye 0) (at_ 1 - eye 1)
      (at_ 2 - eye 2)) = d at f0 f1 f2
    rw [f0, f1, f2]
    refine ⟨?_, ?_, ?_⟩
    · linear_combination d * z0
    · linear_combination d * z1
    · linear_combination d * z2
  have hS1 : norm3 Real.sqrt (lookAtSide Real.sqrt eye at_ up) = 1 :=
    norm3_normalize _ hc
  have hS := norm3_mul_self (lookAtSide Real.sqrt eye at_ up)
  rw [hS1, mul_one] at hS
  unfold lookAtNup
  unfold dot3
  rw [u0, u1, u2]
  refine ⟨hF, hS.symm, ?_, ?_, ?_, ?_⟩
  · linear_combination
      (lookAtSide Real.sqrt eye at_ up 0 * lookAtSide Real.sqrt eye at_ up 0 +
        lookAtSide Real.sqrt eye at_ up 1 * lookAtSide Real.sqrt eye at_ up 1 +
        lookAtSide Real.sqrt eye at_ up 2 * lookAtSide Real.sqrt eye at_ up 2)
        * hF - hS -
      (lookAtSide Real.sqrt eye at_ up 0 * lookAtForw Real.sqrt eye at_ 0 +
        lookAtSide Real.sqrt eye at_ up 1 * lookAtForw Real.sqrt eye at_ 1 +
        lookAtSide Real.sqrt eye at_ up 2 * lookAtForw Real.sqrt eye at_ 2)
        * hsf
  · linear_combination hsf
  · ring
  · ring

/-- C17: for `eye ≠ target` and `up` not parallel to `target - eye`, the
three vectors `auxGlMvpLookAt` computes (`forw`, `side` and
`nup = forw × side`, which is not renormalised) are orthonormal: each has
Euclidean norm 1 and each pair has dot product 0. -/
theorem lookAt_orthonormal (eye at_ up : Buf ℝ)
    (h : (eye 0, eye 1, eye 2) ≠ (at_ 0, at_ 1, at_ 2))
    (hpar : ¬ parallel3 up
      (vec3 (at_ 0 - eye 0) (at_ 1 - eye 1) (at_ 2 - eye 2))) :
    norm3 Real.sqrt (lookAtForw Real.sqrt eye at_) = 1 ∧
    norm3 Real.sqrt (lookAtSide Real.sqrt eye at_ up) = 1 ∧
    norm3 Real.sqrt (lookAtNup Real.sqrt eye at_ up) = 1 ∧
    dot3 (lookAtForw Real.sqrt eye at_) (lookAtSide Real.sqrt eye at_ up)
      = 0 ∧
    dot3 (lookAtForw Real.sqrt eye at_) (lookAtNup Real.sqrt eye at_ up)
      = 0 ∧
    dot3 (lookAtSide Real.sqrt eye at_ up) (lookAtNup Real.sqrt eye at_ up)
      = 0 ∧
    lookAtNup Real.sqrt eye at_ up =
      auxGlCross uninit (lookAtForw Real.sqrt eye at_)
        (lookAtSide Real.sqrt eye at_ up) := by
  obtain ⟨hF, hS, hU, hFS, hFU, hSU⟩ := lookAt_orthonormal_aux eye at_ up h hpar
  exact ⟨norm3_eq_one_of_sumsq _ hF, norm3_eq_one_of_sumsq _ hS,
    norm3_eq_one_of_sumsq _ hU, hFS, hFU, hSU, rfl⟩

/-- The hypotheses of orthonormality at `eye = (0,0,5)`, `target = (0,0,0)`,
`up = (0,1,0)`. -/
theorem lookAt_example_hyps :
    ((vec3 (0 : ℝ) 0 5) 0, (vec3 (0 : ℝ) 0 5) 1, (vec3 (0 : ℝ) 0 5) 2) ≠
      ((vec3 (0 : ℝ) 0 0) 0, (vec3 (0 : ℝ) 0 0) 1, (vec3 (0 : ℝ) 0 0) 2) ∧
    ¬ parallel3 (vec3 (0 : ℝ) 1 0)
      (vec3 ((vec3 (0 : ℝ) 0 0) 0 - (vec3 (0 : ℝ) 0 5) 0)
        ((vec3 (0 : ℝ) 0 0) 1 - (vec3 (0 : ℝ) 0 5) 1)
        ((vec3 (0 : ℝ) 0 0) 2 - (vec3 (0 : ℝ) 0 5) 2)) := by
  constructor
  · simp only [vec3_zero, vec3_one, vec3_two]
    norm_num
  · unfold parallel3
    simp only [vec3_zero, vec3_one, vec3_two]
    norm_num

/-- C17 at `eye = (0,0,5)`, `target = (0,0,0)`, `up = (0,1,0)`: the three
vectors have norm 1 and pairwise dot product 0. -/
theorem lookAt_orthonormal_witness :
    ((0 : ℝ), (0 : ℝ), (5 : ℝ)) ≠ ((0 : ℝ), (0 : ℝ), (0 : ℝ)) ∧
    ¬ parallel3 (vec3 (0 : ℝ) 1 0) (vec3 ((0 : ℝ) - 0) (0 - 0) (0 - 5)) ∧
    norm3 Real.sqrt (lookAtForw Real.sqrt (vec3 0 0 5) (vec3 0 0 0)) = 1 ∧
    norm3 Real.sqrt
      (lookAtSide Real.sqrt (vec3 0 0 5) (vec3 0 0 0) (vec3 0 1 0)) = 1 ∧
    norm3 Real.sqrt
      (lookAtNup Real.sqrt (vec3 0 0 5) (vec3 0 0 0) (vec3 0 1 0)) = 1 ∧
    dot3 (lookAtForw Real.sqrt (vec3 0 0 5) (vec3 0 0 0))
      (lookAtSide Real.sqrt (vec3 0 0 5) (vec3 0 0 0) (vec3 0 1 0)) = 0 ∧
    dot3 (lookAtForw Real.sqrt (vec3 0 0 5) (vec3 0 0 0))
      (lookAtNup Real.sqrt (vec3 0 0 5) (vec3 0 0 0) (vec3 0 1 0)) = 0 ∧
    dot3 (lookAtSide Real.sqrt (vec3 0 0 5) (vec3 0 0 0) (vec3 0 1 0))
      (lookAtNup Real.sqrt (vec3 0 0 5) (vec3 0 0 0) (vec3 0 1 0)) = 0 := by
  have hyp := lookAt_example_hyps
  have h := lookAt_orthonormal (vec3 0 0 5) (vec3 0 0 0) (vec3 0 1 0)
    hyp.1 hyp.2
  simp only [vec3_zero, vec3_one, vec3_two] at hyp
  exact ⟨hyp.1, hyp.2, h.1, h.2.1, h.2.2.1, h.2.2.2.1, h.2.2.2.2.1,
    h.2.2.2.2.2.1⟩

/-- For `eye ≠ at` and `up` not parallel to `at - eye`, the upper-left 3x3
block of the matrix written by `auxGlMvpLookAt` has orthonormal rows and
determinant `-1`: it is a reflection, not a rotation. -/
theorem lookAt_block_det (mat eye at_ up : Buf ℝ)
    (h : (eye 0, eye 1, eye 2) ≠ (at_ 0, at_ 1, at_ 2))
    (hpar : ¬ parallel3 up
      (vec3 (at_ 0 - eye 0) (at_ 1 - eye 1) (at_ 2 - eye 2))) :
    (∀ i j : Fin 3,
      blockRowDot (auxGlMvpLookAt Real.sqrt mat eye at_ up) i.val j.val =
        if i = j then 1 else 0) ∧
    det3 (auxGlMvpLookAt Real.sqrt mat eye at_ up) = -1 := by
  obtain ⟨hF, hS, hU, hFS, hFU, hSU⟩ := lookAt_orthonormal_aux eye at_ up h hpar
  obtain ⟨⟨m0, m1, m2, _⟩, ⟨m4, m5, m6, _⟩, ⟨m8, m9, m10, _⟩, _⟩ :=
    auxGlMvpLookAt_entries mat eye at_ up
  obtain ⟨u0, u1, u2⟩ := auxGlCross_entries uninit
    (lookAtForw Real.sqrt eye at_) (lookAtSide Real.sqrt eye at_ up)
  unfold dot3 at hF hS hU hFS hFU hSU
  constructor
  · intro i j
    fin_cases i <;> fin_cases j <;>
      simp only [blockRowDot, Fin.zero_eta, Fin.mk_one, Fin.reduceFinMk,
        Fin.val_zero, Fin.val_one, Fin.val_two, Fin.isValue, Nat.reduceAdd,
        add_zero, m0, m1, m2, m4, m5, m6, m8, m9, m10, Fin.reduceEq,
        reduceIte] <;>
      linarith
  · unfold det3
    rw [m0, m1, m2, m4, m5, m6, m8, m9, m10]
    unfold lookAtNup at hU hFU hSU ⊢
    rw [u0, u1, u2] at hU hFU hSU ⊢
    linear_combination
      (-(lookAtSide Real.sqrt eye at_ up 0 * lookAtSide Real.sqrt eye at_ up 0 +
        lookAtSide Real.sqrt eye at_ up 1 * lookAtSide Real.sqrt eye at_ up 1 +
        lookAtSide Real.sqrt eye at_ up 2 * lookAtSide Real.sqrt eye at_ up 2))
        * hF - hS +
      (lookAtForw Real.sqrt eye at_ 0 * lookAtSide Real.sqrt eye at_ up 0 +
        lookAtForw Real.sqrt eye at_ 1 * lookAtSide Real.sqrt eye at_ up 1 +
        lookAtForw Real.sqrt eye at_ 2 * lookAtSide Real.sqrt eye at_ up 2)
        * hFS

/-- The vectors `forw` and `side` of `auxGlMvpLookAt` at `eye = (0,0,5)`,
`target = (0,0,0)`, `up = (0,1,0)`: `forw = (0,0,-1)` and
`side = (-1,0,0)`. -/
theorem lookAt_example_vectors :
    lookAtForw Real.sqrt (vec3 0 0 5) (vec3 0 0 0) 0 = 0 ∧
    lookAtForw Real.sqrt (vec3 0 0 5) (vec3 0 0 0) 1 = 0 ∧
    lookAtForw Real.sqrt (vec3 0 0 5) (vec3 0 0 0) 2 = -1 ∧
    lookAtSide Real.sqrt (vec3 0 0 5) (vec3 0 0 0) (vec3 0 1 0) 0 = -1 ∧
    lookAtSide Real.sqrt (vec3 0 0 5) (vec3 0 0 0) (vec3 0 1 0) 1 = 0 ∧
    lookAtSide Real.sqrt (vec3 0 0 5) (vec3 0 0 0) (vec3 0 1 0) 2 = 0 := by
  have hn : norm3 Real.sqrt (vec3 ((0 : ℝ) - 0) (0 - 0) (0 - 5)) = 5 := by
    simp only [norm3, vec3_zero, vec3_one, vec3_two]
    rw [show ((0 : ℝ) - 0) * (0 - 0) + (0 - 0) * (0 - 0) + (0 - 5) * (0 - 5) =
      5 ^ 2 by norm_num]
    exact Real.sqrt_sq (by norm_num)
  obtain ⟨e0, e1, e2⟩ := auxGlNormalize_entries Real.sqrt
    (vec3 ((0 : ℝ) - 0) (0 - 0) (0 - 5))
  rw [hn, if_neg (by norm_num), vec3_zero] at e0
  rw [hn, if_neg (by norm_num), vec3_one] at e1
  rw [hn, if_neg (by norm_num), vec3_two] at e2
  have hF0 : lookAtForw Real.sqrt (vec3 0 0 5) (vec3 0 0 0) 0 = 0 := by
    unfold lookAtForw
    simp only [vec3_zero, vec3_one, vec3_two]
    rw [e0]; norm_num
  have hF1 : lookAtForw Real.sqrt (vec3 0 0 5) (vec3 0 0 0) 1 = 0 := by
    unfold lookAtForw
    simp only [vec3_zero, vec3_one, vec3_two]
    rw [e1]; norm_num
  have hF2 : lookAtForw Real.sqrt (vec3 0 0 5) (vec3 0 0 0) 2 = -1 := by
    unfold lookAtForw
    simp only [vec3_zero, vec3_one, vec3_two]
    rw [e2]; norm_num
  obtain ⟨c0, c1, c2⟩ := auxGlCross_entries uninit (vec3 (0 : ℝ) 1 0)
    (lookAtForw Real.sqrt (vec3 0 0 5) (vec3 0 0 0))
  simp only [hF0, hF1, hF2, vec3_zero, vec3_one, vec3_two] at c0 c1 c2
  have hc : norm3 Real.sqrt (auxGlCross uninit (vec3 (0 : ℝ) 1 0)
      (lookAtForw Real.sqrt (vec3 0 0 5) (vec3 0 0 0))) = 1 := by
    apply norm3_eq_one_of_sumsq
    rw [c0, c1, c2]; norm_num
  obtain ⟨s0, s1, s2⟩ := auxGlNormalize_entries Real.sqrt
    (auxGlCross uninit (vec3 (0 : ℝ) 1 0)
      (lookAtForw Real.sqrt (vec3 0 0 5) (vec3 0 0 0)))
  rw [hc, if_neg one_ne_zero, c0] at s0
  rw [hc, if_neg one_ne_zero, c1] at s1
  rw [hc, if_neg one_ne_zero, c2] at s2
  refine ⟨hF0, hF1, hF2, ?_, ?_, ?_⟩
  · unfold lookAtSide; rw [s0]; norm_num
  · unfold lookAtSide; rw [s1]; norm_num
  · unfold lookAtSide; rw [s2]; norm_num

/-- At `eye = (0,0,5)`, `target = (0,0,0)`, `up = (0,1,0)` the upper-left
3x3 block of the matrix written by `auxGlMvpLookAt` has determinant `-1`,
and the world point `(1,0,0)` to the camera's right gets view-space
`x = -1`. -/
theorem lookAt_example_mirrors :
    det3 (auxGlMvpLookAt Real.sqrt uninit (vec3 0 0 5) (vec3 0 0 0)
      (vec3 0 1 0)) = -1 ∧
    (applyColMajor
      (auxGlMvpLookAt Real.sqrt uninit (vec3 0 0 5) (vec3 0 0 0) (vec3 0 1 0))
      ((1 : ℝ), (0 : ℝ), (0 : ℝ), (1 : ℝ))).1 = -1 := by
  have hyp := lookAt_example_hyps
  refine ⟨(lookAt_block_det uninit (vec3 0 0 5) (vec3 0 0 0) (vec3 0 1 0)
    hyp.1 hyp.2).2, ?_⟩
  obtain ⟨_, _, _, hS0, hS1, hS2⟩ := lookAt_example_vectors
  obtain ⟨⟨m0, _, _, _⟩, ⟨m4, _, _, _⟩, ⟨m8, _, _, _⟩, ⟨m12, _, _, _⟩⟩ :=
    auxGlMvpLookAt_entries uninit (vec3 (0 : ℝ) 0 5) (vec3 0 0 0) (vec3 0 1 0)
  simp only [applyColMajor]
  rw [m0, m4, m8, m12]
  unfold dot3
  rw [hS0, hS1, hS2]
  simp only [vec3_zero, vec3_one, vec3_two]
  norm_num

/-- C18 as stated fails: at `eye = (0,0,5)`, `target = (0,0,0)`,
`up = (0,1,0)` the upper-left 3x3 block of the matrix written by
`auxGlMvpLookAt` has determinant `-1`, not `+1`, and the world point
`(1,0,0)` gets view-space `x = -1`, which is not positive. -/
theorem lookAt_block_not_rotation :
    (¬ ∀ (mat eye at_ up : Buf ℝ),
        (eye 0, eye 1, eye 2) ≠ (at_ 0, at_ 1, at_ 2) →
        ¬ parallel3 up
          (vec3 (at_ 0 - eye 0) (at_ 1 - eye 1) (at_ 2 - eye 2)) →
        (∀ i j : Fin 3,
          blockRowDot (auxGlMvpLookAt Real.sqrt mat eye at_ up) i.val j.val =
            if i = j then 1 else 0) ∧
        det3 (auxGlMvpLookAt Real.sqrt mat eye at_ up) = 1) ∧
    ¬ (0 < (applyColMajor
      (auxGlMvpLookAt Real.sqrt uninit (vec3 0 0 5) (vec3 0 0 0) (vec3 0 1 0))
      ((1 : ℝ), (0 : ℝ), (0 : ℝ), (1 : ℝ))).1) := by
  obtain ⟨hdet, hx⟩ := lookAt_example_mirrors
  constructor
  · intro h
    have h1 := (h uninit (vec3 0 0 5) (vec3 0 0 0) (vec3 0 1 0)
      lookAt_example_hyps.1 lookAt_example_hyps.2).2
    rw [hdet] at h1
    norm_num at h1
  · rw [hx]
    norm_num

/-- C18 (as the code has it): for every `eye ≠ target` and every `up` not
parallel to `target - eye`, the upper-left 3x3 block of the matrix written
by `auxGlMvpLookAt` (rows `side`, `trueUp`, `-forward`) is orthogonal and
its determinant is `-1`: it is a reflection, so the view transform reverses
handedness.  The view-space `x` of a point is its offset from `eye` along
`side = normalize(up × forward)`. -/
theorem lookAt_block_reflection (mat eye at_ up : Buf ℝ)
    (h : (eye 0, eye 1, eye 2) ≠ (at_ 0, at_ 1, at_ 2))
    (hpar : ¬ parallel3 up
      (vec3 (at_ 0 - eye 0) (at_ 1 - eye 1) (at_ 2 - eye 2))) :
    (∀ i j : Fin 3,
      blockRowDot (auxGlMvpLookAt Real.sqrt mat eye at_ up) i.val j.val =
        if i = j then 1 else 0) ∧
    det3 (auxGlMvpLookAt Real.sqrt mat eye at_ up) = -1 ∧
    (∀ x y z : ℝ,
      (applyColMajor (auxGlMvpLookAt Real.sqrt mat eye at_ up)
        (x, y, z, 1)).1 =
        refSide Real.sqrt eye at_ up 0 * (x - eye 0) +
        refSide Real.sqrt eye at_ up 1 * (y - eye 1) +
        refSide Real.sqrt eye at_ up 2 * (z - eye 2)) := by
  obtain ⟨horth, hdet⟩ := lookAt_block_det mat eye at_ up h hpar
  obtain ⟨_, ⟨hS0, hS1, hS2⟩, _⟩ := lookAt_locals_eq_ref eye at_ up
  obtain ⟨⟨m0, _, _, _⟩, ⟨m4, _, _, _⟩, ⟨m8, _, _, _⟩, ⟨m12, _, _, _⟩⟩ :=
    auxGlMvpLookAt_entries mat eye at_ up
  refine ⟨horth, hdet, ?_⟩
  intro x y z
  simp only [applyColMajor]
  rw [m0, m4, m8, m12]
  unfold dot3
  rw [hS0, hS1, hS2]
  ring

/-- C18 (as the code has it) at `eye = (0,0,5)`, `target = (0,0,0)`,
`up = (0,1,0)`: the block has determinant `-1` and the world point `(1,0,0)`
gets view-space `x = -1`. -/
theorem lookAt_block_reflection_witness :
    ((0 : ℝ), (0 : ℝ), (5 : ℝ)) ≠ ((0 : ℝ), (0 : ℝ), (0 : ℝ)) ∧
    ¬ parallel3 (vec3 (0 : ℝ) 1 0) (vec3 ((0 : ℝ) - 0) (0 - 0) (0 - 5)) ∧
    det3 (auxGlMvpLookAt Real.sqrt uninit (vec3 0 0 5) (vec3 0 0 0)
      (vec3 0 1 0)) = -1 ∧
    (applyColMajor
      (auxGlMvpLookAt Real.sqrt uninit (vec3 0 0 5) (vec3 0 0 0) (vec3 0 1 0))
      ((1 : ℝ), (0 : ℝ), (0 : ℝ), (1 : ℝ))).1 = -1 := by
  have hyp := lookAt_example_hyps
  have h := lookAt_block_reflection uninit (vec3 0 0 5) (vec3 0 0 0)
    (vec3 0 1 0) hyp.1 hyp.2
  obtain ⟨_, ⟨hS0, hS1, hS2⟩, _⟩ :=
    lookAt_locals_eq_ref (vec3 (0 : ℝ) 0 5) (vec3 0 0 0) (vec3 0 1 0)
  obtain ⟨_, _, _, e0, e1, e2⟩ := lookAt_example_vectors
  have hx := h.2.2 1 0 0
  rw [← hS0, ← hS1, ← hS2, e0, e1, e2] at hx
  simp only [vec3_zero, vec3_one, vec3_two] at hyp hx
  refine ⟨hyp.1, hyp.2, h.2.1, ?_⟩
  rw [hx]
  norm_num

end LookAtMatrix

/-! ### Shader builder -/

section Shader

/-- What `auxGlShader` returns and the calls it makes. -/
theorem auxGlShader_eq (drv : Driver) (log : List GlCall) (src : String)
    (type : GLenum) :
    auxGlShader drv log src type =
      (if stageStatus drv log src type = GL_TRUE then
          drv.glCreateShader log type else 0,
        log ++ stageCalls drv log src type) := by
  unfold auxGlShader auxGlCheckShader stageCalls stageStatus
  simp only [List.append_assoc, List.singleton_append, List.cons_append,
    List.nil_append]
  by_cases h : drv.glGetShaderiv
      (log ++ [GlCall.createShader type (drv.glCreateShader log type),
        GlCall.shaderSource (drv.glCreateShader log type) src,
        GlCall.compileShader (drv.glCreateShader log type)])
      (drv.glCreateShader log type) = GL_TRUE
  · simp [h]
  · have hne : GL_FALSE ≠ GL_TRUE := by decide
    simp [h, hne]

/-- The loop of `auxGlProgram` appends one bind call per name, the name at
position `i` bound to `attribId + i`. -/
theorem bindAttribs_eq (program : GLuint) (names : List String) :
    ∀ (attribId : Nat) (log : List GlCall),
      bindAttribs program attribId names log =
        log ++ (names.enumFrom attribId).map
          (fun p => GlCall.bindAttribLocation program p.1 p.2) := by
  induction names with
  | nil => intro attribId log; simp [bindAttribs]
  | cons name rest ih =>
    intro attribId log
    simp [bindAttribs, ih, List.enumFrom]

/-- The calls appended to a list are the calls since that list. -/
theorem callsSince_append (log calls : List GlCall) :
    callsSince log (log ++ calls) = calls := by
  simp [callsSince]

/-- The calls made up to the end of the fragment stage. -/
theorem fragStage_log (drv : Driver) (log : List GlCall)
    (srcVert srcFrag : String) :
    (fragStage drv log srcVert srcFrag).2 =
      log ++ (stageCalls drv log srcVert GL_VERTEX_SHADER ++
        stageCalls drv (vertStage drv log srcVert).2 srcFrag
          GL_FRAGMENT_SHADER) := by
  simp only [fragStage, vertStage, auxGlShader_eq, List.append_assoc]

/-- `auxGlShader` returns a nonzero handle only if the stage compiled, and
then the handle is the one `glCreateShader` returned. -/
theorem auxGlShader_ne_zero (drv : Driver) (log : List GlCall) (src : String)
    (type : GLenum) (h : (auxGlShader drv log src type).1 ≠ 0) :
    stageStatus drv log src type = GL_TRUE ∧
    (auxGlShader drv log src type).1 = drv.glCreateShader log type := by
  rw [auxGlShader_eq] at h ⊢
  by_cases hs : stageStatus drv log src type = GL_TRUE
  · simp [hs]
  · simp [hs] at h

/-- The calls of a stage hold no program call and no delete. -/
theorem stageCalls_filter (drv : Driver) (log : List GlCall) (src : String)
    (type : GLenum) :
    (stageCalls drv log src type).filter isProgramCall = [] ∧
    (stageCalls drv log src type).filter isDeleteShader = [] ∧
    (stageCalls drv log src type).filter isCreateProgram = [] ∧
    (stageCalls drv log src type).filter isBindAttribLocation = [] := by
  unfold stageCalls
  by_cases hs : stageStatus drv log src type = GL_TRUE
  · simp [hs, isProgramCall, isDeleteShader, isCreateProgram,
      isBindAttribLocation]
  · simp [hs, isProgramCall, isDeleteShader, isCreateProgram,
      isBindAttribLocation]

/-- Bind calls are bind calls and nothing else. -/
theorem bindCalls_filter (program : GLuint) (names : List String) :
    (bindCalls program names).filter isBindAttribLocation =
      bindCalls program names ∧
    (bindCalls program names).filter isDeleteShader = [] ∧
    (bindCalls program names).filter isCreateProgram = [] := by
  unfold bindCalls
  refine ⟨?_, ?_, ?_⟩
  · rw [List.filter_eq_self]
    intro c hc
    obtain ⟨p, _, rfl⟩ := List.mem_map.mp hc
    rfl
  · rw [List.filter_eq_nil_iff]
    intro c hc
    obtain ⟨p, _, rfl⟩ := List.mem_map.mp hc
    simp [isDeleteShader]
  · rw [List.filter_eq_nil_iff]
    intro c hc
    obtain ⟨p, _, rfl⟩ := List.mem_map.mp hc
    simp [isCreateProgram]

/-- The calls `auxGlProgram` makes once both stages have compiled and the
program has been created. -/
theorem auxGlProgram_success (drv : Driver) (log : List GlCall)
    (srcVert srcFrag : String) (attributes : Option (List String))
    (hv : (vertStage drv log srcVert).1 ≠ 0)
    (hf : (fragStage drv log srcVert srcFrag).1 ≠ 0)
    (hp : createdProgram drv log srcVert srcFrag ≠ 0) :
    auxGlProgram drv log srcVert srcFrag attributes =
      (createdProgram drv log srcVert srcFrag,
       (fragStage drv log srcVert srcFrag).2 ++
        ([GlCall.createProgram (createdProgram drv log srcVert srcFrag),
          GlCall.attachShader (createdProgram drv log srcVert srcFrag)
            (vertStage drv log srcVert).1,
          GlCall.attachShader (createdProgram drv log srcVert srcFrag)
            (fragStage drv log srcVert srcFrag).1] ++
         bindCalls (createdProgram drv log srcVert srcFrag)
            (attributes.getD []) ++
         [GlCall.linkProgram (createdProgram drv log srcVert srcFrag),
          GlCall.deleteShader (vertStage drv log srcVert).1,
          GlCall.deleteShader (fragStage drv log srcVert srcFrag).1])) := by
  unfold createdProgram fragStage vertStage at *
  unfold auxGlProgram
  simp only [if_neg hv, if_neg hf, if_neg hp]
  cases attributes with
  | none => simp [bindCalls]
  | some names => simp [bindCalls, bindAttribs_eq, List.enum]

/-- The calls `auxGlProgram` makes when both stages have compiled and
`glCreateProgram` returns 0. -/
theorem auxGlProgram_no_program (drv : Driver) (log : List GlCall)
    (srcVert srcFrag : String) (attributes : Option (List String))
    (hv : (vertStage drv log srcVert).1 ≠ 0)
    (hf : (fragStage drv log srcVert srcFrag).1 ≠ 0)
    (hp : createdProgram drv log srcVert srcFrag = 0) :
    auxGlProgram drv log srcVert srcFrag attributes =
      (0, (fragStage drv log srcVert srcFrag).2 ++
        [GlCall.createProgram 0,
          GlCall.deleteShader (vertStage drv log srcVert).1,
          GlCall.deleteShader (fragStage drv log srcVert srcFrag).1]) := by
  unfold createdProgram fragStage vertStage at *
  unfold auxGlProgram
  simp only [if_neg hv, if_neg hf, if_pos hp]
  simp [hp]

/-- What `auxGlProgram` does when the vertex stage does not yield a
handle. -/
theorem auxGlProgram_no_vertex (drv : Driver) (log : List GlCall)
    (srcVert srcFrag : String) (attributes : Option (List String))
    (hv : (vertStage drv log srcVert).1 = 0) :
    auxGlProgram drv log srcVert srcFrag attributes =
      (0, (vertStage drv log srcVert).2) := by
  unfold vertStage at *
  unfold auxGlProgram
  simp only [if_pos hv]

/-- What `auxGlProgram` does when the vertex stage yields a handle and the
fragment stage does not. -/
theorem auxGlProgram_no_fragment (drv : Driver) (log : List GlCall)
    (srcVert srcFrag : String) (attributes : Option (List String))
    (hv : (vertStage drv log srcVert).1 ≠ 0)
    (hf : (fragStage drv log srcVert srcFrag).1 = 0) :
    auxGlProgram drv log srcVert srcFrag attributes =
      (0, (fragStage drv log srcVert srcFrag).2 ++ [GlCall.deleteShader 0]) := by
  unfold fragStage vertStage at *
  unfold auxGlProgram
  simp only [if_neg hv, if_pos hf]
  simp [hf]

/-- C12: for a driver whose `glCreateShader` returns nonzero handles,
`auxGlProgram` returns 0 if and only if the vertex stage's compile status is
not success, or the fragment stage's compile status is not success, or
`glCreateProgram` returns 0; in every other case it returns the handle
`glCreateProgram` returned, which is nonzero.  No answer of the driver about
linking enters the result. -/
theorem program_zero_iff (drv : Driver) (log : List GlCall)
    (srcVert srcFrag : String) (attributes : Option (List String))
    (hnz : ∀ (calls : List GlCall) (type : GLenum),
      drv.glCreateShader calls type ≠ 0) :
    ((auxGlProgram drv log srcVert srcFrag attributes).1 = 0 ↔
      stageStatus drv log srcVert GL_VERTEX_SHADER ≠ GL_TRUE ∨
      stageStatus drv (vertStage drv log srcVert).2 srcFrag
        GL_FRAGMENT_SHADER ≠ GL_TRUE ∨
      createdProgram drv log srcVert srcFrag = 0) ∧
    (¬ (stageStatus drv log srcVert GL_VERTEX_SHADER ≠ GL_TRUE ∨
        stageStatus drv (vertStage drv log srcVert).2 srcFrag
          GL_FRAGMENT_SHADER ≠ GL_TRUE ∨
        createdProgram drv log srcVert srcFrag = 0) →
      (auxGlProgram drv log srcVert srcFrag attributes).1 =
        createdProgram drv log srcVert srcFrag ∧
      createdProgram drv log srcVert srcFrag ≠ 0) := by
  have hvert : (vertStage drv log srcVert).1 =
      if stageStatus drv log srcVert GL_VERTEX_SHADER = GL_TRUE then
        drv.glCreateShader log GL_VERTEX_SHADER else 0 := by
    rw [vertStage, auxGlShader_eq]
  have hfrag : (fragStage drv log srcVert srcFrag).1 =
      if stageStatus drv (vertStage drv log srcVert).2 srcFrag
          GL_FRAGMENT_SHADER = GL_TRUE then
        drv.glCreateShader (vertStage drv log srcVert).2 GL_FRAGMENT_SHADER
      else 0 := by
    rw [fragStage, auxGlShader_eq]
  by_cases hvs : stageStatus drv log srcVert GL_VERTEX_SHADER = GL_TRUE
  · rw [if_pos hvs] at hvert
    have hv : (vertStage drv log srcVert).1 ≠ 0 := by
      rw [hvert]; exact hnz _ _
    by_cases hfs : stageStatus drv (vertStage drv log srcVert).2 srcFrag
        GL_FRAGMENT_SHADER = GL_TRUE
    · rw [if_pos hfs] at hfrag
      have hf : (fragStage drv log srcVert srcFrag).1 ≠ 0 := by
        rw [hfrag]; exact hnz _ _
      by_cases hp : createdProgram drv log srcVert srcFrag = 0
      · rw [auxGlProgram_no_program drv log srcVert srcFrag attributes hv hf hp]
        simp [hp]
      · rw [auxGlProgram_success drv log srcVert srcFrag attributes hv hf hp]
        simp [hvs, hfs, hp]
    · rw [if_neg hfs] at hfrag
      rw [auxGlProgram_no_fragment drv log srcVert srcFrag attributes hv hfrag]
      simp [hfs]
  · rw [if_neg hvs] at hvert
    rw [auxGlProgram_no_vertex drv log srcVert srcFrag attributes hvert]
    simp [hvs]

/-- C12 on a driver where both stages compile and `glCreateProgram` returns
3: `auxGlProgram` returns 3. -/
theorem program_zero_iff_witness :
    (∀ (calls : List GlCall) (type : GLenum),
      workingDriver.glCreateShader calls type ≠ 0) ∧
    (auxGlProgram workingDriver [] "v" "f" none).1 = 3 := by
  have hnz : ∀ (calls : List GlCall) (type : GLenum),
      workingDriver.glCreateShader calls type ≠ 0 := by
    intro calls type
    show (if type = GL_VERTEX_SHADER then 1 else 2) ≠ 0
    split <;> decide
  exact ⟨hnz, ((program_zero_iff workingDriver [] "v" "f" none hnz).2
    (by decide)).1⟩

/-- C13: on the path where both stages compile and the program is created,
`auxGlProgram` makes, after the calls of the two stages, `glCreateProgram`,
the two `glAttachShader` calls, then one `glBindAttribLocation` call per name
of the attribute list, the `i`-th name bound to location `i` in list order,
then `glLinkProgram` and the two deletes; these are all its bind calls, and
a null list gives none. -/
theorem program_binds_attributes (drv : Driver) (log : List GlCall)
    (srcVert srcFrag : String) (attributes : Option (List String))
    (hv : (vertStage drv log srcVert).1 ≠ 0)
    (hf : (fragStage drv log srcVert srcFrag).1 ≠ 0)
    (hp : createdProgram drv log srcVert srcFrag ≠ 0) :
    callsSince (fragStage drv log srcVert srcFrag).2
        (auxGlProgram drv log srcVert srcFrag attributes).2 =
      [GlCall.createProgram (createdProgram drv log srcVert srcFrag),
        GlCall.attachShader (createdProgram drv log srcVert srcFrag)
          (vertStage drv log srcVert).1,
        GlCall.attachShader (createdProgram drv log srcVert srcFrag)
          (fragStage drv log srcVert srcFrag).1] ++
      bindCalls (createdProgram drv log srcVert srcFrag)
        (attributes.getD []) ++
      [GlCall.linkProgram (createdProgram drv log srcVert srcFrag),
        GlCall.deleteShader (vertStage drv log srcVert).1,
        GlCall.deleteShader (fragStage drv log srcVert srcFrag).1] ∧
    (callsSince log
        (auxGlProgram drv log srcVert srcFrag attributes).2).filter
        isBindAttribLocation =
      bindCalls (createdProgram drv log srcVert srcFrag)
        (attributes.getD []) ∧
    (bindCalls (createdProgram drv log srcVert srcFrag)
      (attributes.getD [])).length = (attributes.getD []).length ∧
    (∀ (i : Nat) (name : String), (attributes.getD [])[i]? = some name →
      (bindCalls (createdProgram drv log srcVert srcFrag)
        (attributes.getD []))[i]? =
        some (GlCall.bindAttribLocation
          (createdProgram drv log srcVert srcFrag) i name)) ∧
    (attributes = none →
      (callsSince log
        (auxGlProgram drv log srcVert srcFrag attributes).2).filter
        isBindAttribLocation = []) := by
  have hfilter : (callsSince log
        (auxGlProgram drv log srcVert srcFrag attributes).2).filter
        isBindAttribLocation =
      bindCalls (createdProgram drv log srcVert srcFrag)
        (attributes.getD []) := by
    rw [auxGlProgram_success drv log srcVert srcFrag attributes hv hf hp,
      fragStage_log, List.append_assoc, callsSince_append]
    simp only [List.filter_append, (stageCalls_filter _ _ _ _).2.2.2,
      (bindCalls_filter _ _).1, List.nil_append]
    simp [isBindAttribLocation]
  refine ⟨?_, hfilter, ?_, ?_, ?_⟩
  · rw [auxGlProgram_success drv log srcVert srcFrag attributes hv hf hp,
      callsSince_append]
  · simp [bindCalls]
  · intro i name hname
    simp [bindCalls, List.getElem?_map, hname]
  · intro hnone
    rw [hfilter, hnone]
    rfl

/-- C13 on the attribute list `["position", "color"]`: the bind calls are
`position` at location 0 and `color` at location 1. -/
theorem program_binds_attributes_witness :
    (vertStage workingDriver [] "v").1 ≠ 0 ∧
    (fragStage workingDriver [] "v" "f").1 ≠ 0 ∧
    createdProgram workingDriver [] "v" "f" ≠ 0 ∧
    (callsSince []
        (auxGlProgram workingDriver [] "v" "f"
          (some ["position", "color"])).2).filter isBindAttribLocation =
      [GlCall.bindAttribLocation 3 0 "position",
        GlCall.bindAttribLocation 3 1 "color"] :=
  ⟨by decide, by decide, by decide,
    (program_binds_attributes workingDriver [] "v" "f"
      (some ["position", "color"]) (by decide) (by decide) (by decide)).2.1⟩

/-- C14 on two failing builds.  With the vertex stage compiled (handle 1)
and the fragment stage failing to compile (handle 2), `auxGlProgram` returns
0, its only delete is `glDeleteShader(0)`, and the shader objects 1 and 2 are
both still alive: the stage whose compilation failed is left alive.  With the
vertex stage failing to compile (handle 1), `auxGlProgram` returns 0 without
any delete and the object 1 is still alive. -/
theorem failed_stage_left_alive :
    (auxGlProgram fragmentFailsDriver [] "v" "f" none).1 = 0 ∧
    (auxGlProgram fragmentFailsDriver [] "v" "f" none).2.filter
      isDeleteShader = [GlCall.deleteShader 0] ∧
    liveShaders (auxGlProgram fragmentFailsDriver [] "v" "f" none).2 =
      [1, 2] ∧
    (auxGlProgram vertexFailsDriver [] "v" "f" none).1 = 0 ∧
    (auxGlProgram vertexFailsDriver [] "v" "f" none).2.filter
      isDeleteShader = [] ∧
    liveShaders (auxGlProgram vertexFailsDriver [] "v" "f" none).2 = [1] := by
  decide

/-- C15: when the vertex stage compiles (a nonzero handle with compile
status success) and the fragment stage fails to compile, `auxGlProgram`
returns 0; after the calls of the two stages its one further call is
`glDeleteShader(0)`; it makes no `glCreateProgram`, `glAttachShader`,
`glBindAttribLocation` or `glLinkProgram` call, and it never passes the
vertex stage handle to `glDeleteShader`. -/
theorem fragment_failure_path (drv : Driver) (log : List GlCall)
    (srcVert srcFrag : String) (attributes : Option (List String))
    (hhandle : drv.glCreateShader log GL_VERTEX_SHADER ≠ 0)
    (hvs : stageStatus drv log srcVert GL_VERTEX_SHADER = GL_TRUE)
    (hfs : stageStatus drv (vertStage drv log srcVert).2 srcFrag
      GL_FRAGMENT_SHADER ≠ GL_TRUE) :
    (auxGlProgram drv log srcVert srcFrag attributes).1 = 0 ∧
    callsSince (fragStage drv log srcVert srcFrag).2
      (auxGlProgram drv log srcVert srcFrag attributes).2 =
      [GlCall.deleteShader 0] ∧
    (callsSince log
      (auxGlProgram drv log srcVert srcFrag attributes).2).filter
      isProgramCall = [] ∧
    (callsSince log
      (auxGlProgram drv log srcVert srcFrag attributes).2).filter
      isDeleteShader = [GlCall.deleteShader 0] ∧
    GlCall.deleteShader (vertStage drv log srcVert).1 ∉
      callsSince log (auxGlProgram drv log srcVert srcFrag attributes).2 ∧
    (vertStage drv log srcVert).1 = drv.glCreateShader log GL_VERTEX_SHADER := by
  have hvert : (vertStage drv log srcVert).1 =
      drv.glCreateShader log GL_VERTEX_SHADER := by
    rw [vertStage, auxGlShader_eq]
    exact if_pos hvs
  have hv : (vertStage drv log srcVert).1 ≠ 0 := by
    rw [hvert]; exact hhandle
  have hfrag : (fragStage drv log srcVert srcFrag).1 = 0 := by
    rw [fragStage, auxGlShader_eq]
    exact if_neg hfs
  have hdel : (callsSince log
      (auxGlProgram drv log srcVert srcFrag attributes).2).filter
      isDeleteShader = [GlCall.deleteShader 0] := by
    rw [auxGlProgram_no_fragment drv log srcVert srcFrag attributes hv hfrag,
      fragStage_log, List.append_assoc, callsSince_append]
    simp only [List.filter_append, (stageCalls_filter _ _ _ _).2.1,
      List.nil_append]
    simp [isDeleteShader]
  refine ⟨?_, ?_, ?_, hdel, ?_, hvert⟩
  · rw [auxGlProgram_no_fragment drv log srcVert srcFrag attributes hv hfrag]
  · rw [auxGlProgram_no_fragment drv log srcVert srcFrag attributes hv hfrag,
      callsSince_append]
  · rw [auxGlProgram_no_fragment drv log srcVert srcFrag attributes hv hfrag,
      fragStage_log, List.append_assoc, callsSince_append]
    simp only [List.filter_append, (stageCalls_filter _ _ _ _).1,
      List.nil_append]
    simp [isProgramCall]
  · intro hmem
    have hmem' : GlCall.deleteShader (vertStage drv log srcVert).1 ∈
        (callsSince log
          (auxGlProgram drv log srcVert srcFrag attributes).2).filter
          isDeleteShader :=
      List.mem_filter.mpr ⟨hmem, rfl⟩
    rw [hdel, List.mem_singleton] at hmem'
    exact hv (GlCall.deleteShader.inj hmem')

/-- C15 on a driver where the vertex stage gets handle 1 and compiles and
the fragment stage gets handle 2 and fails: the result is 0 and the only
delete is `glDeleteShader(0)`. -/
theorem fragment_failure_path_witness :
    fragmentFailsDriver.glCreateShader [] GL_VERTEX_SHADER ≠ 0 ∧
    stageStatus fragmentFailsDriver [] "v" GL_VERTEX_SHADER = GL_TRUE ∧
    stageStatus fragmentFailsDriver (vertStage fragmentFailsDriver [] "v").2
      "f" GL_FRAGMENT_SHADER ≠ GL_TRUE ∧
    (auxGlProgram fragmentFailsDriver [] "v" "f" none).1 = 0 ∧
    (callsSince []
      (auxGlProgram fragmentFailsDriver [] "v" "f" none).2).filter
      isDeleteShader = [GlCall.deleteShader 0] :=
  have h := fragment_failure_path fragmentFailsDriver [] "v" "f" none
    (by decide) (by decide) (by decide)
  ⟨by decide, by decide, by decide, h.1, h.2.2.2.1⟩

/-- C19: on every path where both stages compile, `auxGlProgram` calls
`glCreateProgram` exactly once and makes one `glDeleteShader` call for each
of the two stage handles, vertex first.  When `glCreateProgram` returns 0
the two deletes follow it at once; otherwise the calls after it are attach
vertex, attach fragment, the attribute binds, link, delete vertex, delete
fragment, in that order. -/
theorem program_create_delete_order (drv : Driver) (log : List GlCall)
    (srcVert srcFrag : String) (attributes : Option (List String))
    (hv : (vertStage drv log srcVert).1 ≠ 0)
    (hf : (fragStage drv log srcVert srcFrag).1 ≠ 0) :
    ((callsSince log
      (auxGlProgram drv log srcVert srcFrag attributes).2).filter
      isCreateProgram).length = 1 ∧
    (callsSince log
      (auxGlProgram drv log srcVert srcFrag attributes).2).filter
      isDeleteShader =
      [GlCall.deleteShader (vertStage drv log srcVert).1,
        GlCall.deleteShader (fragStage drv log srcVert srcFrag).1] ∧
    (createdProgram drv log srcVert srcFrag = 0 →
      callsSince (fragStage drv log srcVert srcFrag).2
        (auxGlProgram drv log srcVert srcFrag attributes).2 =
        [GlCall.createProgram 0,
          GlCall.deleteShader (vertStage drv log srcVert).1,
          GlCall.deleteShader (fragStage drv log srcVert srcFrag).1]) ∧
    (createdProgram drv log srcVert srcFrag ≠ 0 →
      ∃ binds : List GlCall,
        (∀ c ∈ binds, isBindAttribLocation c = true) ∧
        callsSince (fragStage drv log srcVert srcFrag).2
          (auxGlProgram drv log srcVert srcFrag attributes).2 =
          [GlCall.createProgram (createdProgram drv log srcVert srcFrag),
            GlCall.attachShader (createdProgram drv log srcVert srcFrag)
              (vertStage drv log srcVert).1,
            GlCall.attachShader (createdProgram drv log srcVert srcFrag)
              (fragStage drv log srcVert srcFrag).1] ++
          binds ++
          [GlCall.linkProgram (createdProgram drv log srcVert srcFrag),
            GlCall.deleteShader (vertStage drv log srcVert).1,
            GlCall.deleteShader (fragStage drv log srcVert srcFrag).1]) := by
  by_cases hp : createdProgram drv log srcVert srcFrag = 0
  · rw [auxGlProgram_no_program drv log srcVert srcFrag attributes hv hf hp]
    refine ⟨?_, ?_, fun _ => callsSince_append _ _, fun h => absurd hp h⟩
    · rw [fragStage_log, List.append_assoc, callsSince_append]
      simp only [List.filter_append, (stageCalls_filter _ _ _ _).2.2.1,
        List.nil_append]
      simp [isCreateProgram]
    · rw [fragStage_log, List.append_assoc, callsSince_append]
      simp only [List.filter_append, (stageCalls_filter _ _ _ _).2.1,
        List.nil_append]
      simp [isDeleteShader]
  · rw [auxGlProgram_success drv log srcVert srcFrag attributes hv hf hp]
    refine ⟨?_, ?_, fun h => absurd h hp, fun _ =>
      ⟨bindCalls (createdProgram drv log srcVert srcFrag)
        (attributes.getD []), ?_, callsSince_append _ _⟩⟩
    · rw [fragStage_log, List.append_assoc, callsSince_append]
      simp only [List.filter_append, (stageCalls_filter _ _ _ _).2.2.1,
        (bindCalls_filter _ _).2.2, List.nil_append]
      simp [isCreateProgram]
    · rw [fragStage_log, List.append_assoc, callsSince_append]
      simp only [List.filter_append, (stageCalls_filter _ _ _ _).2.1,
        (bindCalls_filter _ _).2.1, List.nil_append]
      simp [isDeleteShader]
    · intro c hc
      have h := (bindCalls_filter (createdProgram drv log srcVert srcFrag)
        (attributes.getD [])).1
      rw [← h] at hc
      exact (List.mem_filter.mp hc).2

/-- C19 on a driver where both stages compile (handles 1 and 2) and the
program handle is 3, with one attribute: the calls after the two stages are
create, attach 1, attach 2, bind, link, delete 1, delete 2. -/
theorem program_create_delete_order_witness :
    (vertStage workingDriver [] "v").1 ≠ 0 ∧
    (fragStage workingDriver [] "v" "f").1 ≠ 0 ∧
    ((callsSince []
      (auxGlProgram workingDriver [] "v" "f" (some ["position"])).2).filter
      isCreateProgram).length = 1 ∧
    (callsSince []
      (auxGlProgram workingDriver [] "v" "f" (some ["position"])).2).filter
      isDeleteShader = [GlCall.deleteShader 1, GlCall.deleteShader 2] :=
  have h := program_create_delete_order workingDriver [] "v" "f"
    (some ["position"]) (by decide) (by decide)
  ⟨by decide, by decide, h.1, h.2.1⟩

end Shader

end AuxGl
